import Mathlib

/-!
Health checker: a shallow embedding of the evaluation engine

The Go packages `internal/config`, `internal/metrics` and `internal/checker`
are embedded as pure Lean definitions.

* Go strings are embedded as Lean `String`s.  Comparison and prefix tests are
  taken character by character; on well-formed UTF-8 text (in particular on
  Kubernetes object names, which are ASCII) this agrees with Go's bytewise
  comparison.
* A `for ... range` loop is a structurally recursive function over the list
  that is ranged over, with one equation per iteration; an early `return`
  ends the recursion.
* The five Prometheus gauges are the fields of `Gauges`.  The checks only
  ever call `Set` with the literals `0` and `1`, so gauge values are integers.
* The cluster API is a record `Client` of responses; every call made by a
  check is appended to the request log of the `State`.
* `log.Printf` / `log.Println` calls have no influence on gauges, requests or
  control flow and are left out.
* The environment read by `config.Load` is a function from variable names to
  values (`os.Getenv`).  Go `int` has 64 bits; `time.Duration` is an `int64`
  whose multiplication wraps around (`wrapInt64`).  `strconv.Atoi`,
  `strings.Split`, `strings.TrimSpace` and `unicode.IsSpace` are embedded from
  their library semantics.
-/

set_option autoImplicit false

namespace HealthChecker

/-! ## Package `config` -/

/-- Runtime configuration (`config.Config`); `CheckInterval` is a
`time.Duration`, counted in nanoseconds. -/
structure Config where
  CheckInterval : Int
  MetricsPort : Int
  SystemNamespacePrefixes : List String
  SystemNamespaces : List String
  deriving DecidableEq, Repr

/-! ### Library functions used by `config` -/

/-- Go `int64` arithmetic wraps around: the value of a mathematical integer
as a signed 64-bit integer. -/
def wrapInt64 (x : Int) : Int :=
  (x + 2 ^ 63) % 2 ^ 64 - 2 ^ 63

/-- The constant `time.Second`, in nanoseconds. -/
def Second : Int := 1000000000

/-- Digit loop of `strconv.Atoi`: the value of a string of decimal digits
read after `acc`, or `none` at a character that is not a digit. -/
def Atoi.digits (acc : Nat) : List Char → Option Nat
  | [] => some acc
  | ch :: rest =>
    if ch.isDigit then Atoi.digits (acc * 10 + (ch.toNat - 48)) rest else none

/-- Go `strconv.Atoi` where `int` has 64 bits: an optional sign `+` or `-`,
then one or more decimal digits and nothing else; a value outside the range
of `int` is an error. -/
def Atoi (s : String) : Except String Int :=
  let signed : Bool × List Char :=
    match s.data with
    | '-' :: rest => (true, rest)
    | '+' :: rest => (false, rest)
    | l => (false, l)
  if signed.2 = [] then .error "invalid syntax"
  else
    match Atoi.digits 0 signed.2 with
    | none => .error "invalid syntax"
    | some n =>
      let v : Int := if signed.1 then -(n : Int) else (n : Int)
      if v < -(2 ^ 63) ∨ v > 2 ^ 63 - 1 then .error "value out of range"
      else .ok v

/-- Go `unicode.IsSpace`: the characters with the Unicode White Space
property. -/
def IsSpace (c : Char) : Bool :=
  decide (c.toNat ∈ [0x09, 0x0A, 0x0B, 0x0C, 0x0D, 0x20, 0x85, 0xA0, 0x1680,
    0x2028, 0x2029, 0x202F, 0x205F, 0x3000])
  || (decide (0x2000 ≤ c.toNat) && decide (c.toNat ≤ 0x200A))

/-- Go `strings.TrimSpace`: the string without its leading and trailing white
space. -/
def TrimSpace (s : String) : String :=
  ⟨(s.data.dropWhile IsSpace).rdropWhile IsSpace⟩

/-- Fields of a character list around each occurrence of `sep`. -/
def Split.fields (sep : Char) : List Char → List (List Char)
  | [] => [[]]
  | c :: rest =>
    if c = sep then [] :: Split.fields sep rest
    else
      match Split.fields sep rest with
      | [] => [[c]]
      | field :: more => (c :: field) :: more

/-- Go `strings.Split(s, sep)` for a separator of one character: the
substrings of `s` between the occurrences of `sep`. -/
def Split (s : String) (sep : Char) : List String :=
  (Split.fields sep s.data).map String.mk

/-! ### config.go -/

/-- The errors `Load` returns, by the variable that failed; `got` is the
rejected value quoted in the message. -/
inductive LoadError where
  | checkInterval (got : String)
  | metricsPort (got : String)
  deriving DecidableEq, Repr

/-- Loop of `splitAndTrim` over `parts`, carrying `result`. -/
def splitAndTrim.loop : List String → List String → List String
  | [], result => result
  | p :: parts, result =>
    let p := TrimSpace p
    if p ≠ "" then splitAndTrim.loop parts (result ++ [p])
    else splitAndTrim.loop parts result

/-- Embedding of `splitAndTrim(s)`. -/
def splitAndTrim (s : String) : List String :=
  let parts := Split s ','
  splitAndTrim.loop parts []

/-- The zero value `Config{}`; a nil slice is the empty list. -/
def Config.zero : Config :=
  { CheckInterval := 0, MetricsPort := 0,
    SystemNamespacePrefixes := [], SystemNamespaces := [] }

/-- The `CHECK_INTERVAL` block of `Load`: the value assigned to
`cfg.CheckInterval`, or the error returned. -/
def Load.checkInterval (intervalStr : String) : Except LoadError Int :=
  if intervalStr = "" then .ok (30 * Second)
  else
    match Atoi intervalStr with
    | .error _ => .error (LoadError.checkInterval intervalStr)
    | .ok secs =>
      if secs ≤ 0 then .error (LoadError.checkInterval intervalStr)
      else .ok (wrapInt64 (secs * Second))

/-- The `METRICS_PORT` block of `Load`: the value assigned to
`cfg.MetricsPort`, or the error returned. -/
def Load.metricsPort (portStr : String) : Except LoadError Int :=
  if portStr = "" then .ok 8080
  else
    match Atoi portStr with
    | .error _ => .error (LoadError.metricsPort portStr)
    | .ok port =>
      if port < 1 ∨ port > 65535 then .error (LoadError.metricsPort portStr)
      else .ok port

/-- Embedding of `Load()`; `getenv` is `os.Getenv` (an unset variable reads
as the empty string).  The result is the pair `(Config, error)`, with `none`
for a nil error; the four blocks of the function assign the four fields of
`cfg` in turn, and an error in a block returns `Config{}` at once. -/
def Load (getenv : String → String) : Config × Option LoadError :=
  match Load.checkInterval (getenv "CHECK_INTERVAL") with
  | .error err => (Config.zero, some err)
  | .ok interval =>
    match Load.metricsPort (getenv "METRICS_PORT") with
    | .error err => (Config.zero, some err)
    | .ok port =>
      let prefixStr := getenv "SYSTEM_NAMESPACE_PREFIXES"
      let nsStr := getenv "SYSTEM_NAMESPACES"
      ({ CheckInterval := interval,
         MetricsPort := port,
         SystemNamespacePrefixes :=
           if prefixStr = "" then ["openshift-", "kube-"] else splitAndTrim prefixStr,
         SystemNamespaces :=
           if nsStr = "" then [] else splitAndTrim nsStr }, none)

/-! ## Library functions and constants used by the checker -/

/-- Go `strings.HasPrefix`:
`len(s) >= len(prefix) && s[:len(prefix)] == prefix`. -/
def HasPrefix (s pre : String) : Bool :=
  decide (s.length ≥ pre.length) && (s.data.take pre.length == pre.data)

/-! ## Package `checker`: namespaces.go -/

/-- First loop of `IsSystemNamespace`: `true` when the loop returns `true`,
`false` when it runs to its end. -/
def IsSystemNamespace.prefixLoop (name : String) : List String → Bool
  | [] => false
  | pre :: rest =>
    if HasPrefix name pre then true else IsSystemNamespace.prefixLoop name rest

/-- Second loop of `IsSystemNamespace`. -/
def IsSystemNamespace.exactLoop (name : String) : List String → Bool
  | [] => false
  | ns :: rest =>
    if name = ns then true else IsSystemNamespace.exactLoop name rest

/-- Embedding of `IsSystemNamespace(name, cfg)`. -/
def IsSystemNamespace (name : String) (cfg : Config) : Bool :=
  if IsSystemNamespace.prefixLoop name cfg.SystemNamespacePrefixes then true
  else if IsSystemNamespace.exactLoop name cfg.SystemNamespaces then true
  else false

/-- The configuration used by the checker tests (`defaultConfig()` in
namespaces_test.go): the default prefixes and no exact names. -/
def defaultConfig : Config :=
  { CheckInterval := 0, MetricsPort := 0,
    SystemNamespacePrefixes := ["openshift-", "kube-"],
    SystemNamespaces := [] }

/-! ## Kubernetes and OpenShift API types (the fields the checker reads) -/

/-- Values of `configv1.ClusterStatusConditionType` used by the checker. -/
def OperatorDegraded : String := "Degraded"
/-- The condition type `configv1.OperatorAvailable`. -/
def OperatorAvailable : String := "Available"
/-- The status `ConditionTrue` (both in `configv1` and in `corev1`). -/
def ConditionTrue : String := "True"
/-- The status `ConditionFalse`. -/
def ConditionFalse : String := "False"
/-- The node condition type `corev1.NodeReady`. -/
def NodeReady : String := "Ready"
/-- The pod phase `corev1.PodFailed`. -/
def PodFailed : String := "Failed"

/-- A `configv1.ClusterOperatorStatusCondition`; the Go field `Type` is
written `Type_`, and the condition type and status are string
types in Go. -/
structure ClusterOperatorStatusCondition where
  Type_ : String
  Status : String
  Message : String := ""
  deriving DecidableEq, Repr

/-- A `configv1.ClusterOperator`: `ObjectMeta.Name` and `Status.Conditions`. -/
structure ClusterOperator where
  Name : String
  Conditions : List ClusterOperatorStatusCondition
  deriving DecidableEq, Repr

/-- A `configv1.ClusterVersion`: `ObjectMeta.Name` and `Status.Conditions`. -/
structure ClusterVersion where
  Name : String
  Conditions : List ClusterOperatorStatusCondition
  deriving DecidableEq, Repr

/-- A `corev1.NodeCondition`; the Go field `Type` is written `Type_`. -/
structure NodeCondition where
  Type_ : String
  Status : String
  deriving DecidableEq, Repr

/-- A `corev1.Node`: `ObjectMeta.Name` and `Status.Conditions`. -/
structure Node where
  Name : String
  Conditions : List NodeCondition
  deriving DecidableEq, Repr

/-- A `corev1.ContainerStateWaiting`. -/
structure ContainerStateWaiting where
  Reason : String
  deriving DecidableEq, Repr

/-- A `corev1.ContainerStateRunning`. -/
structure ContainerStateRunning where
  deriving DecidableEq, Repr

/-- A `corev1.ContainerStateTerminated`. -/
structure ContainerStateTerminated where
  Reason : String
  deriving DecidableEq, Repr

/-- A `corev1.ContainerState`: three pointers, `none` standing for `nil`. -/
structure ContainerState where
  Waiting : Option ContainerStateWaiting := none
  Running : Option ContainerStateRunning := none
  Terminated : Option ContainerStateTerminated := none
  deriving DecidableEq, Repr

/-- A `corev1.ContainerStatus`. -/
structure ContainerStatus where
  Name : String
  State : ContainerState
  deriving DecidableEq, Repr

/-- A `corev1.Pod`: name, namespace and the parts of `Status` that are read. -/
structure Pod where
  Name : String
  Namespace : String
  Phase : String
  ContainerStatuses : List ContainerStatus
  InitContainerStatuses : List ContainerStatus
  deriving DecidableEq, Repr

/-- A `corev1.Namespace`. -/
structure Namespace where
  Name : String
  deriving DecidableEq, Repr

/-! ## Package `metrics` and the cluster API -/

/-- The five gauges of package `metrics`. -/
structure Gauges where
  ClusterOperatorsDegraded : Int
  NodesNotReady : Int
  SystemPodsFailing : Int
  ClusterVersionDegraded : Int
  EtcdDegraded : Int
  deriving DecidableEq, Repr

/-- A call made to the cluster API. -/
inductive Request where
  | ListClusterOperators
  | GetClusterVersion (name : String)
  | ListNodes
  | ListNamespaces
  | ListPods (ns : String)
  deriving DecidableEq, Repr

/-- The responses of the cluster API during one cycle; an `error` carries the
message of the Go `error`. -/
structure Client where
  ListClusterOperators : Except String (List ClusterOperator)
  GetClusterVersion : String → Except String ClusterVersion
  ListNodes : Except String (List Node)
  ListNamespaces : Except String (List Namespace)
  ListPods : String → Except String (List Pod)

/-- The mutable state around a check: the gauge registry and the log of API
calls made so far (oldest first). -/
structure State where
  gauges : Gauges
  requests : List Request
  deriving DecidableEq, Repr

/-- Record an API call. -/
def State.request (s : State) (r : Request) : State :=
  { s with requests := s.requests ++ [r] }

/-- The call `metrics.ClusterOperatorsDegraded.Set(v)`. -/
def State.setClusterOperatorsDegraded (s : State) (v : Int) : State :=
  { s with gauges := { s.gauges with ClusterOperatorsDegraded := v } }

/-- The call `metrics.NodesNotReady.Set(v)`. -/
def State.setNodesNotReady (s : State) (v : Int) : State :=
  { s with gauges := { s.gauges with NodesNotReady := v } }

/-- The call `metrics.SystemPodsFailing.Set(v)`. -/
def State.setSystemPodsFailing (s : State) (v : Int) : State :=
  { s with gauges := { s.gauges with SystemPodsFailing := v } }

/-- The call `metrics.ClusterVersionDegraded.Set(v)`. -/
def State.setClusterVersionDegraded (s : State) (v : Int) : State :=
  { s with gauges := { s.gauges with ClusterVersionDegraded := v } }

/-- The call `metrics.EtcdDegraded.Set(v)`. -/
def State.setEtcdDegraded (s : State) (v : Int) : State :=
  { s with gauges := { s.gauges with EtcdDegraded := v } }

/-! ## Package `checker`: clusteroperators.go -/

/-- Loop of `isOperatorDegraded` over `op.Status.Conditions`; the `switch` on
the condition type has two cases and no default. -/
def isOperatorDegraded.loop : List ClusterOperatorStatusCondition → Bool
  | [] => false
  | cond :: rest =>
    if cond.Type_ = OperatorDegraded then
      if cond.Status = ConditionTrue then true else isOperatorDegraded.loop rest
    else if cond.Type_ = OperatorAvailable then
      if cond.Status = ConditionFalse then true else isOperatorDegraded.loop rest
    else isOperatorDegraded.loop rest

/-- Embedding of `isOperatorDegraded(op)`. -/
def isOperatorDegraded (op : ClusterOperator) : Bool :=
  isOperatorDegraded.loop op.Conditions

/-- Loop of `CheckClusterOperators` over `operators.Items`; the pair is
`(operatorsDegraded, etcdDegraded)`. -/
def CheckClusterOperators.loop : List ClusterOperator → Bool × Bool → Bool × Bool
  | [], flags => flags
  | op :: rest, (operatorsDegraded, etcdDegraded) =>
    let degraded := isOperatorDegraded op
    if op.Name = "etcd" then
      if degraded then CheckClusterOperators.loop rest (operatorsDegraded, true)
      else CheckClusterOperators.loop rest (operatorsDegraded, etcdDegraded)
    else
      if degraded then CheckClusterOperators.loop rest (true, etcdDegraded)
      else CheckClusterOperators.loop rest (operatorsDegraded, etcdDegraded)

/-- Embedding of `CheckClusterOperators(ctx, client)`. -/
def CheckClusterOperators (client : Client) (s : State) : State :=
  let s := s.request Request.ListClusterOperators
  match client.ListClusterOperators with
  | .error _ =>
    let s := s.setClusterOperatorsDegraded 1
    s.setEtcdDegraded 1
  | .ok operators =>
    let flags := CheckClusterOperators.loop operators (false, false)
    let s := if flags.1 then s.setClusterOperatorsDegraded 1
             else s.setClusterOperatorsDegraded 0
    if flags.2 then s.setEtcdDegraded 1 else s.setEtcdDegraded 0

/-! ## Package `checker`: clusterversion.go -/

/-- Loop of `isClusterVersionDegraded` over `cv.Status.Conditions`. -/
def isClusterVersionDegraded.loop : List ClusterOperatorStatusCondition → Bool
  | [] => false
  | cond :: rest =>
    if cond.Type_ = OperatorDegraded then
      if cond.Status = ConditionTrue then true else isClusterVersionDegraded.loop rest
    else if cond.Type_ = OperatorAvailable then
      if cond.Status = ConditionFalse then true else isClusterVersionDegraded.loop rest
    else isClusterVersionDegraded.loop rest

/-- Embedding of `isClusterVersionDegraded(cv)`. -/
def isClusterVersionDegraded (cv : ClusterVersion) : Bool :=
  isClusterVersionDegraded.loop cv.Conditions

/-- Embedding of `CheckClusterVersion(ctx, client)`. -/
def CheckClusterVersion (client : Client) (s : State) : State :=
  let s := s.request (Request.GetClusterVersion "version")
  match client.GetClusterVersion "version" with
  | .error _ => s.setClusterVersionDegraded 1
  | .ok cv =>
    if isClusterVersionDegraded cv then s.setClusterVersionDegraded 1
    else s.setClusterVersionDegraded 0

/-! ## Package `checker`: nodes.go -/

/-- Loop of `isNodeReady` over `node.Status.Conditions`. -/
def isNodeReady.loop : List NodeCondition → Bool
  | [] => false
  | cond :: rest =>
    if cond.Type_ = NodeReady then decide (cond.Status = ConditionTrue)
    else isNodeReady.loop rest

/-- Embedding of `isNodeReady(node)`. -/
def isNodeReady (node : Node) : Bool :=
  isNodeReady.loop node.Conditions

/-- Loop of `CheckNodes` over `nodes.Items`, carrying `notReady`. -/
def CheckNodes.loop : List Node → Bool → Bool
  | [], notReady => notReady
  | node :: rest, notReady =>
    if !isNodeReady node then CheckNodes.loop rest true
    else CheckNodes.loop rest notReady

/-- Embedding of `CheckNodes(ctx, client)`. -/
def CheckNodes (client : Client) (s : State) : State :=
  let s := s.request Request.ListNodes
  match client.ListNodes with
  | .error _ => s.setNodesNotReady 1
  | .ok nodes =>
    let notReady := CheckNodes.loop nodes false
    if notReady then s.setNodesNotReady 1 else s.setNodesNotReady 0

/-! ## Package `checker`: pods.go -/

/-- The map `fatalContainerReasons`, as its list of entries. -/
def fatalContainerReasonsEntries : List (String × Bool) :=
  [("CrashLoopBackOff", true), ("OOMKilled", true), ("Error", true)]

/-- The lookup `fatalContainerReasons[reason]`: a key that is not in the map
yields the zero value `false`. -/
def fatalContainerReasons (reason : String) : Bool :=
  (fatalContainerReasonsEntries.lookup reason).getD false

/-- Embedding of `isContainerFailing(cs)`. -/
def isContainerFailing (cs : ContainerStatus) : Bool :=
  if (match cs.State.Waiting with
      | some w => fatalContainerReasons w.Reason
      | none => false) then true
  else if (match cs.State.Terminated with
      | some t => fatalContainerReasons t.Reason
      | none => false) then true
  else false

/-- A loop of `isPodFailing` over a list of container statuses: `true` when
the loop returns `true`, `false` when it runs to its end. -/
def isPodFailing.loop : List ContainerStatus → Bool
  | [] => false
  | cs :: rest => if isContainerFailing cs then true else isPodFailing.loop rest

/-- Embedding of `isPodFailing(pod)`. -/
def isPodFailing (pod : Pod) : Bool :=
  if pod.Phase = PodFailed then true
  else if isPodFailing.loop pod.ContainerStatuses then true
  else if isPodFailing.loop pod.InitContainerStatuses then true
  else false

/-- Inner loop of `CheckSystemPods` over `pods.Items`, carrying `failing`. -/
def CheckSystemPods.podLoop : List Pod → Bool → Bool
  | [], failing => failing
  | pod :: rest, failing =>
    if isPodFailing pod then CheckSystemPods.podLoop rest true
    else CheckSystemPods.podLoop rest failing

/-- Outer loop of `CheckSystemPods` over `nsList.Items`, carrying `failing`.
The result is `none` when the function has returned from inside the loop
(after a pod list failed) and `some failing` when the loop ran to its end. -/
def CheckSystemPods.namespaceLoop (client : Client) (cfg : Config) :
    List Namespace → Bool → State → State × Option Bool
  | [], failing, s => (s, some failing)
  | ns :: rest, failing, s =>
    if !IsSystemNamespace ns.Name cfg then
      CheckSystemPods.namespaceLoop client cfg rest failing s
    else
      let s := s.request (Request.ListPods ns.Name)
      match client.ListPods ns.Name with
      | .error _ => (s.setSystemPodsFailing 1, none)
      | .ok pods =>
        CheckSystemPods.namespaceLoop client cfg rest
          (CheckSystemPods.podLoop pods failing) s

/-- Embedding of `CheckSystemPods(ctx, client, cfg)`. -/
def CheckSystemPods (client : Client) (cfg : Config) (s : State) : State :=
  let s := s.request Request.ListNamespaces
  match client.ListNamespaces with
  | .error _ => s.setSystemPodsFailing 1
  | .ok nsList =>
    match CheckSystemPods.namespaceLoop client cfg nsList false s with
    | (s, none) => s
    | (s, some failing) =>
      if failing then s.setSystemPodsFailing 1 else s.setSystemPodsFailing 0

/-! ## Package `checker`: checker.go -/

/-- Embedding of `RunChecks(ctx, k8sClient, ocpClient, cfg)`; both Go clients
are views of the one `Client` record. -/
def RunChecks (client : Client) (cfg : Config) (s : State) : State :=
  let s := CheckClusterOperators client s
  let s := CheckClusterVersion client s
  let s := CheckNodes client s
  CheckSystemPods client cfg s

/-! ## Specification-side definitions -/

/-- Specification side (not in the source): the conditions of a list that are
the first of their type, given the types `seen` so far. -/
def firstOfEachType.go (seen : List String) :
    List ClusterOperatorStatusCondition → List ClusterOperatorStatusCondition
  | [] => []
  | c :: rest =>
    if c.Type_ ∈ seen then firstOfEachType.go seen rest
    else c :: firstOfEachType.go (c.Type_ :: seen) rest

/-- Specification side (not in the source): the list in which every later
condition of an already-seen type has been removed. -/
def firstOfEachType (l : List ClusterOperatorStatusCondition) :
    List ClusterOperatorStatusCondition :=
  firstOfEachType.go [] l

/-! ## Scenarios used to instantiate the theorems -/

/-- A client whose every call fails. -/
def unreachableClient : Client :=
  { ListClusterOperators := .error "unreachable",
    GetClusterVersion := fun _ => .error "unreachable",
    ListNodes := .error "unreachable",
    ListNamespaces := .error "unreachable",
    ListPods := fun _ => .error "unreachable" }

/-- A client that lists the namespaces `my-app` and `openshift-etcd` and fails
on every pod list. -/
def podListFailsClient : Client :=
  { unreachableClient with
    ListNamespaces := .ok [⟨"my-app"⟩, ⟨"openshift-etcd"⟩] }

/-- The state with every gauge at 0 and no request made. -/
def zeroState : State :=
  { gauges := ⟨0, 0, 0, 0, 0⟩, requests := [] }

/-- The state with every gauge at 7 and no request made. -/
def sevenState : State :=
  { gauges := ⟨7, 7, 7, 7, 7⟩, requests := [] }

/-- Three operators: `etcd` with Available=False, two healthy ones. -/
def etcdDownOperators : List ClusterOperator :=
  [ ⟨"console", [⟨"Available", "True", ""⟩, ⟨"Degraded", "False", ""⟩]⟩,
    ⟨"etcd", [⟨"Available", "False", "no quorum"⟩]⟩,
    ⟨"dns", [⟨"Degraded", "False", ""⟩]⟩ ]

/-- A node with the single condition Ready=`status`. -/
def nodeWithReady (name status : String) : Node :=
  ⟨name, [⟨"Ready", status⟩]⟩

/-- A running pod whose only container waits with reason OOMKilled. -/
def oomPod (ns : String) : Pod :=
  { Name := "p", Namespace := ns, Phase := "Running",
    ContainerStatuses := [⟨"app", ⟨some ⟨"OOMKilled"⟩, none, none⟩⟩],
    InitContainerStatuses := [] }

/-- A healthy cluster with the one namespace `ns`, which holds `oomPod ns`. -/
def singleNamespaceClient (ns : String) : Client :=
  { ListClusterOperators := .ok [],
    GetClusterVersion := fun name =>
      if name = "version" then .ok ⟨"version", [⟨"Available", "True", ""⟩]⟩
      else .error "not found",
    ListNodes := .ok [],
    ListNamespaces := .ok [⟨ns⟩],
    ListPods := fun n => if n = ns then .ok [oomPod ns] else .ok [] }

/-- A client that lists `kube-system`, `my-app`, `openshift-etcd`,
`openshift-dns`; the pod list of `kube-system` holds a failing pod, the pod
list of `openshift-etcd` fails, every other pod list is empty. -/
def midFailureClient : Client :=
  { unreachableClient with
    ListNamespaces :=
      .ok [⟨"kube-system"⟩, ⟨"my-app"⟩, ⟨"openshift-etcd"⟩, ⟨"openshift-dns"⟩],
    ListPods := fun n =>
      if n = "kube-system" then .ok [oomPod "kube-system"]
      else if n = "openshift-etcd" then .error "timeout"
      else .ok [] }

/-- The environment in which the listed variables are set to the listed
values and every other variable is unset. -/
def envOf (vars : List (String × String)) : String → String :=
  fun key => (vars.lookup key).getD ""

/-! ## Auxiliary lemmas -/

/-- The Go prefix test holds exactly when the character list of the prefix is
a prefix of the character list of the string. -/
theorem HasPrefix_iff_isPrefix (s pre : String) :
    HasPrefix s pre = true ↔ pre.data <+: s.data := by
  unfold HasPrefix
  simp only [Bool.and_eq_true, decide_eq_true_eq, beq_iff_eq, String.length]
  constructor
  · rintro ⟨_, h⟩
    exact List.prefix_iff_eq_take.mpr h.symm
  · intro h
    exact ⟨h.length_le, (List.prefix_iff_eq_take.mp h).symm⟩

/-- The Go prefix test holds exactly when the string is the prefix followed
by some remainder. -/
theorem HasPrefix_iff_append (s pre : String) :
    HasPrefix s pre = true ↔ ∃ rest : String, s = pre ++ rest := by
  rw [HasPrefix_iff_isPrefix]
  constructor
  · rintro ⟨t, ht⟩
    refine ⟨⟨t⟩, ?_⟩
    apply String.ext
    simpa using ht.symm
  · rintro ⟨rest, rfl⟩
    exact ⟨rest.data, by simp⟩

theorem prefixLoop_iff (name : String) (l : List String) :
    IsSystemNamespace.prefixLoop name l = true ↔ ∃ pre ∈ l, HasPrefix name pre = true := by
  induction l with
  | nil => simp [IsSystemNamespace.prefixLoop]
  | cons p ps ih =>
    by_cases h : HasPrefix name p = true <;> simp [IsSystemNamespace.prefixLoop, h, ih]

theorem exactLoop_iff (name : String) (l : List String) :
    IsSystemNamespace.exactLoop name l = true ↔ name ∈ l := by
  induction l with
  | nil => simp [IsSystemNamespace.exactLoop]
  | cons p ps ih =>
    by_cases h : name = p <;> simp [IsSystemNamespace.exactLoop, h, ih]

theorem IsSystemNamespace_iff (name : String) (cfg : Config) :
    IsSystemNamespace name cfg = true ↔
      ((∃ pre ∈ cfg.SystemNamespacePrefixes, ∃ rest : String, name = pre ++ rest)
        ∨ name ∈ cfg.SystemNamespaces) := by
  unfold IsSystemNamespace
  have h1 := prefixLoop_iff name cfg.SystemNamespacePrefixes
  have h2 := exactLoop_iff name cfg.SystemNamespaces
  simp only [HasPrefix_iff_append] at h1
  rw [← h1, ← h2]
  cases IsSystemNamespace.prefixLoop name cfg.SystemNamespacePrefixes <;>
    cases IsSystemNamespace.exactLoop name cfg.SystemNamespaces <;> simp

/-! ## The namespace classifier -/

/-- C1: `IsSystemNamespace name cfg` is true exactly when `name` is some entry
of `cfg.SystemNamespacePrefixes` followed by a remainder, or `name` is an entry
of `cfg.SystemNamespaces`; with the prefixes `openshift-` and `kube-` and no
exact names, `kube-system` is a system namespace and `kubernetes-ops` is not. -/
theorem IsSystemNamespace_prefix_or_exact :
    (∀ (name : String) (cfg : Config),
      IsSystemNamespace name cfg = true ↔
        ((∃ pre ∈ cfg.SystemNamespacePrefixes, ∃ rest : String, name = pre ++ rest)
          ∨ name ∈ cfg.SystemNamespaces))
    ∧ (∀ interval port : Int,
        IsSystemNamespace "kube-system"
          { CheckInterval := interval, MetricsPort := port,
            SystemNamespacePrefixes := ["openshift-", "kube-"],
            SystemNamespaces := [] } = true)
    ∧ (∀ interval port : Int,
        IsSystemNamespace "kubernetes-ops"
          { CheckInterval := interval, MetricsPort := port,
            SystemNamespacePrefixes := ["openshift-", "kube-"],
            SystemNamespaces := [] } = false) := by
  refine ⟨IsSystemNamespace_iff, ?_, ?_⟩
  · intro interval port
    show IsSystemNamespace "kube-system" defaultConfig = true
    decide
  · intro interval port
    show IsSystemNamespace "kubernetes-ops" defaultConfig = false
    decide

/-! ## The condition evaluators -/

theorem isOperatorDegraded_loop_iff (l : List ClusterOperatorStatusCondition) :
    isOperatorDegraded.loop l = true ↔
      ∃ c ∈ l, (c.Type_ = "Degraded" ∧ c.Status = "True")
        ∨ (c.Type_ = "Available" ∧ c.Status = "False") := by
  induction l with
  | nil => simp [isOperatorDegraded.loop]
  | cons c cs ih =>
    have hne : ("Available" : String) ≠ "Degraded" := by decide
    unfold isOperatorDegraded.loop
    simp only [OperatorDegraded, OperatorAvailable, ConditionTrue, ConditionFalse,
      List.mem_cons, exists_eq_or_imp]
    by_cases hd : c.Type_ = "Degraded"
    · by_cases hs : c.Status = "True"
      · simp [hd, hs]
      · simp [hd, hs, ih, hne.symm]
    · by_cases ha : c.Type_ = "Available"
      · by_cases hs : c.Status = "False"
        · simp [ha, hs]
        · simp [ha, hs, ih, hne]
      · simp [hd, ha, ih]

theorem isClusterVersionDegraded_loop_eq (l : List ClusterOperatorStatusCondition) :
    isClusterVersionDegraded.loop l = isOperatorDegraded.loop l := by
  induction l with
  | nil => rfl
  | cons c cs ih => simp [isClusterVersionDegraded.loop, isOperatorDegraded.loop, ih]

/-- C2: `isOperatorDegraded` is true exactly when the condition list holds a
condition of type Degraded with status True or one of type Available with
status False; on an empty condition list it is false. -/
theorem isOperatorDegraded_iff_condition_present :
    (∀ op : ClusterOperator,
      isOperatorDegraded op = true ↔
        ∃ c ∈ op.Conditions, (c.Type_ = "Degraded" ∧ c.Status = "True")
          ∨ (c.Type_ = "Available" ∧ c.Status = "False"))
    ∧ (∀ name : String, isOperatorDegraded { Name := name, Conditions := [] } = false) := by
  refine ⟨fun op => isOperatorDegraded_loop_iff op.Conditions, ?_⟩
  intro name
  rfl

theorem isNodeReady_loop_iff (l : List NodeCondition) :
    isNodeReady.loop l = true ↔
      ∃ pre c post, l = pre ++ c :: post ∧ (∀ d ∈ pre, d.Type_ ≠ "Ready")
        ∧ c.Type_ = "Ready" ∧ c.Status = "True" := by
  induction l with
  | nil => simp [isNodeReady.loop]
  | cons a as ih =>
    unfold isNodeReady.loop
    simp only [NodeReady, ConditionTrue]
    by_cases ha : a.Type_ = "Ready"
    · simp only [ha, if_true, decide_eq_true_eq]
      constructor
      · intro hs
        exact ⟨[], a, as, rfl, by simp, ha, hs⟩
      · rintro ⟨pre, c, post, hl, hpre, hc, hs⟩
        cases pre with
        | nil =>
          simp only [List.nil_append, List.cons.injEq] at hl
          rw [hl.1]; exact hs
        | cons b bs =>
          simp only [List.cons_append, List.cons.injEq] at hl
          exact absurd (hl.1 ▸ ha) (hpre b (List.mem_cons_self _ _))
    · simp only [ha, if_false, ih]
      constructor
      · rintro ⟨pre, c, post, hl, hpre, hc, hs⟩
        refine ⟨a :: pre, c, post, by simp [hl], ?_, hc, hs⟩
        intro d hd
        rcases List.mem_cons.mp hd with rfl | hd
        · exact ha
        · exact hpre d hd
      · rintro ⟨pre, c, post, hl, hpre, hc, hs⟩
        cases pre with
        | nil =>
          simp only [List.nil_append, List.cons.injEq] at hl
          exact absurd (hl.1 ▸ hc) ha
        | cons b bs =>
          simp only [List.cons_append, List.cons.injEq] at hl
          exact ⟨bs, c, post, hl.2, fun d hd => hpre d (List.mem_cons_of_mem _ hd), hc, hs⟩

theorem isNodeReady_loop_true_mem (l : List NodeCondition)
    (h : isNodeReady.loop l = true) :
    ∃ c ∈ l, c.Type_ = "Ready" ∧ c.Status = "True" := by
  obtain ⟨pre, c, post, hl, -, hc, hs⟩ := (isNodeReady_loop_iff l).mp h
  exact ⟨c, by simp [hl], hc, hs⟩

theorem isNodeReady_loop_no_ready (l : List NodeCondition)
    (h : ∀ c ∈ l, c.Type_ ≠ "Ready") : isNodeReady.loop l = false := by
  cases hb : isNodeReady.loop l with
  | false => rfl
  | true =>
    obtain ⟨c, hc, ht, -⟩ := isNodeReady_loop_true_mem l hb
    exact absurd ht (h c hc)

/-- C3, the claim as stated fails: the node with conditions
`[Ready=False, Ready=True]` holds a condition of type Ready with status True,
yet `isNodeReady` returns false on it. -/
theorem isNodeReady_present_not_sufficient :
    ¬ (isNodeReady { Name := "n", Conditions := [⟨"Ready", "False"⟩, ⟨"Ready", "True"⟩] } = true ↔
        ∃ c ∈ [(⟨"Ready", "False"⟩ : NodeCondition), ⟨"Ready", "True"⟩],
          c.Type_ = "Ready" ∧ c.Status = "True") := by
  intro h
  have hfalse : isNodeReady ⟨"n", [⟨"Ready", "False"⟩, ⟨"Ready", "True"⟩]⟩ = false := by
    decide
  rw [hfalse] at h
  exact Bool.false_ne_true (h.mpr ⟨⟨"Ready", "True"⟩, by simp, rfl, rfl⟩)

/-- C3, amended: `isNodeReady` is true exactly when a condition of type Ready
with status True is present and no condition of type Ready stands before it in
the list; whenever it is true a Ready=True condition is present; and a node
with no condition of type Ready is not ready. -/
theorem isNodeReady_iff_first_ready_true (node : Node) :
    (isNodeReady node = true ↔
      ∃ pre c post, node.Conditions = pre ++ c :: post
        ∧ (∀ d ∈ pre, d.Type_ ≠ "Ready") ∧ c.Type_ = "Ready" ∧ c.Status = "True")
    ∧ (isNodeReady node = true →
        ∃ c ∈ node.Conditions, c.Type_ = "Ready" ∧ c.Status = "True")
    ∧ ((∀ c ∈ node.Conditions, c.Type_ ≠ "Ready") → isNodeReady node = false) :=
  ⟨isNodeReady_loop_iff node.Conditions, isNodeReady_loop_true_mem node.Conditions,
    isNodeReady_loop_no_ready node.Conditions⟩

/-- C3, amended, at the nodes `[Ready=True]` (ready, with the condition
present) and `[MemoryPressure=False]` (no Ready condition, not ready). -/
theorem isNodeReady_iff_first_ready_true_witness :
    (∃ c ∈ [(⟨"Ready", "True"⟩ : NodeCondition)], c.Type_ = "Ready" ∧ c.Status = "True")
    ∧ isNodeReady { Name := "m", Conditions := [⟨"MemoryPressure", "False"⟩] } = false :=
  ⟨(isNodeReady_iff_first_ready_true { Name := "n", Conditions := [⟨"Ready", "True"⟩] }).2.1
      (by decide),
   (isNodeReady_iff_first_ready_true
      { Name := "m", Conditions := [⟨"MemoryPressure", "False"⟩] }).2.2
      (by intro c hc; simp only [List.mem_singleton] at hc; subst hc; decide)⟩

/-! ## Failing containers and pods -/

theorem fatalContainerReasons_iff (r : String) :
    fatalContainerReasons r = true ↔ r ∈ ["CrashLoopBackOff", "OOMKilled", "Error"] := by
  unfold fatalContainerReasons fatalContainerReasonsEntries
  simp only [List.lookup, List.mem_cons, List.mem_singleton, List.not_mem_nil, or_false]
  by_cases h1 : r = "CrashLoopBackOff"
  · simp [h1]
  · by_cases h2 : r = "OOMKilled"
    · simp [h2]
    · by_cases h3 : r = "Error"
      · simp [h3]
      · have e1 : (r == "CrashLoopBackOff") = false := by simpa using h1
        have e2 : (r == "OOMKilled") = false := by simpa using h2
        have e3 : (r == "Error") = false := by simpa using h3
        simp [h1, h2, h3, e1, e2, e3]

theorem isContainerFailing_iff (cs : ContainerStatus) :
    isContainerFailing cs = true ↔
      ((∃ w, cs.State.Waiting = some w
          ∧ w.Reason ∈ ["CrashLoopBackOff", "OOMKilled", "Error"])
        ∨ (∃ t, cs.State.Terminated = some t
          ∧ t.Reason ∈ ["CrashLoopBackOff", "OOMKilled", "Error"])) := by
  unfold isContainerFailing
  simp only [← fatalContainerReasons_iff]
  cases hw : cs.State.Waiting with
  | none =>
    cases ht : cs.State.Terminated with
    | none => simp
    | some t => cases hf : fatalContainerReasons t.Reason <;> simp [hf]
  | some w =>
    cases hf : fatalContainerReasons w.Reason with
    | true => simp [hf]
    | false =>
      cases ht : cs.State.Terminated with
      | none => simp [hf]
      | some t => cases hg : fatalContainerReasons t.Reason <;> simp [hf, hg]

theorem isPodFailing_loop_iff (l : List ContainerStatus) :
    isPodFailing.loop l = true ↔ ∃ cs ∈ l, isContainerFailing cs = true := by
  induction l with
  | nil => simp [isPodFailing.loop]
  | cons c cs ih =>
    by_cases h : isContainerFailing c = true <;> simp [isPodFailing.loop, h, ih]

theorem isPodFailing_iff_aux (pod : Pod) :
    isPodFailing pod = true ↔
      (pod.Phase = "Failed"
        ∨ ∃ cs, (cs ∈ pod.ContainerStatuses ∨ cs ∈ pod.InitContainerStatuses)
            ∧ isContainerFailing cs = true) := by
  unfold isPodFailing
  simp only [PodFailed]
  by_cases hp : pod.Phase = "Failed"
  · simp [hp]
  · have h1 := isPodFailing_loop_iff pod.ContainerStatuses
    have h2 := isPodFailing_loop_iff pod.InitContainerStatuses
    simp only [hp, if_false, false_or]
    constructor
    · intro h
      by_cases hc : isPodFailing.loop pod.ContainerStatuses = true
      · obtain ⟨cs, hmem, hf⟩ := h1.mp hc
        exact ⟨cs, Or.inl hmem, hf⟩
      · by_cases hi : isPodFailing.loop pod.InitContainerStatuses = true
        · obtain ⟨cs, hmem, hf⟩ := h2.mp hi
          exact ⟨cs, Or.inr hmem, hf⟩
        · simp [hc, hi] at h
    · rintro ⟨cs, hmem | hmem, hf⟩
      · simp [h1.mpr ⟨cs, hmem, hf⟩]
      · simp [h2.mpr ⟨cs, hmem, hf⟩]

/-- C4: `isPodFailing` is true exactly when the phase is Failed, or some entry
of `ContainerStatuses` or of `InitContainerStatuses` has a waiting state or a
terminated state whose reason is CrashLoopBackOff, OOMKilled or Error. -/
theorem isPodFailing_iff_phase_or_fatal_container (pod : Pod) :
    isPodFailing pod = true ↔
      (pod.Phase = "Failed"
        ∨ ∃ cs, (cs ∈ pod.ContainerStatuses ∨ cs ∈ pod.InitContainerStatuses)
            ∧ ((∃ w, cs.State.Waiting = some w
                  ∧ w.Reason ∈ ["CrashLoopBackOff", "OOMKilled", "Error"])
              ∨ (∃ t, cs.State.Terminated = some t
                  ∧ t.Reason ∈ ["CrashLoopBackOff", "OOMKilled", "Error"]))) := by
  rw [isPodFailing_iff_aux]
  simp only [isContainerFailing_iff]

/-- C5: `isContainerFailing` is true exactly when the waiting state is present
with a reason among CrashLoopBackOff, OOMKilled, Error, or the terminated
state is present with such a reason; waiting with ContainerCreating,
terminated with Completed, an empty waiting or terminated reason, and a status
with neither state all give false. -/
theorem isContainerFailing_iff_fatal_reason :
    (∀ cs : ContainerStatus,
      isContainerFailing cs = true ↔
        ((∃ w, cs.State.Waiting = some w
            ∧ w.Reason ∈ ["CrashLoopBackOff", "OOMKilled", "Error"])
          ∨ (∃ t, cs.State.Terminated = some t
            ∧ t.Reason ∈ ["CrashLoopBackOff", "OOMKilled", "Error"])))
    ∧ (∀ (name : String) (running : Option ContainerStateRunning),
        isContainerFailing ⟨name, ⟨some ⟨"ContainerCreating"⟩, running, none⟩⟩ = false
        ∧ isContainerFailing ⟨name, ⟨none, running, some ⟨"Completed"⟩⟩⟩ = false
        ∧ isContainerFailing ⟨name, ⟨some ⟨""⟩, running, none⟩⟩ = false
        ∧ isContainerFailing ⟨name, ⟨none, running, some ⟨""⟩⟩⟩ = false
        ∧ isContainerFailing ⟨name, ⟨none, running, none⟩⟩ = false) := by
  refine ⟨isContainerFailing_iff, ?_⟩
  intro name running
  refine ⟨?_, ?_, ?_, ?_, ?_⟩ <;> rfl

/-! ## The loops of the check units -/

theorem CheckClusterOperators_loop_eq (l : List ClusterOperator) (a b : Bool) :
    CheckClusterOperators.loop l (a, b) =
      (a || l.any (fun op => decide (op.Name ≠ "etcd") && isOperatorDegraded op),
       b || l.any (fun op => decide (op.Name = "etcd") && isOperatorDegraded op)) := by
  induction l generalizing a b with
  | nil => simp [CheckClusterOperators.loop]
  | cons op rest ih =>
    unfold CheckClusterOperators.loop
    by_cases hn : op.Name = "etcd" <;> cases hd : isOperatorDegraded op <;>
      simp [hn, hd, ih]

theorem CheckNodes_loop_eq (l : List Node) (b : Bool) :
    CheckNodes.loop l b = (b || l.any (fun n => !isNodeReady n)) := by
  induction l generalizing b with
  | nil => simp [CheckNodes.loop]
  | cons n rest ih =>
    unfold CheckNodes.loop
    cases hr : isNodeReady n <;> simp [hr, ih]

theorem CheckSystemPods_podLoop_eq (l : List Pod) (b : Bool) :
    CheckSystemPods.podLoop l b = (b || l.any isPodFailing) := by
  induction l generalizing b with
  | nil => simp [CheckSystemPods.podLoop]
  | cons p rest ih =>
    unfold CheckSystemPods.podLoop
    cases hr : isPodFailing p <;> simp [hr, ih]

/-- The outer loop of the pod unit leaves the gauges alone when it runs to its
end, and has set `SystemPodsFailing` to 1 when it returned early. -/
theorem namespaceLoop_gauges (client : Client) (cfg : Config) (l : List Namespace)
    (f : Bool) (s : State) :
    (CheckSystemPods.namespaceLoop client cfg l f s).1.gauges =
      match (CheckSystemPods.namespaceLoop client cfg l f s).2 with
      | none => { s.gauges with SystemPodsFailing := 1 }
      | some _ => s.gauges := by
  induction l generalizing f s with
  | nil => simp [CheckSystemPods.namespaceLoop]
  | cons ns rest ih =>
    unfold CheckSystemPods.namespaceLoop
    by_cases hsys : IsSystemNamespace ns.Name cfg = true
    · cases hp : client.ListPods ns.Name with
      | error e => simp [hsys, State.setSystemPodsFailing, State.request]
      | ok pods =>
        simp only [hsys, Bool.not_true, Bool.false_eq_true, if_false]
        rw [ih]
        rfl
    · simp only [hsys, Bool.not_eq_true] at hsys ⊢
      simp only [hsys, Bool.not_false, if_true]
      exact ih f s

/-- The outer loop of the pod unit returns early as soon as the pod list of a
system namespace fails. -/
theorem namespaceLoop_none_of_error (client : Client) (cfg : Config) (l : List Namespace)
    (f : Bool) (s : State)
    (h : ∃ ns ∈ l, IsSystemNamespace ns.Name cfg = true
      ∧ ∃ e, client.ListPods ns.Name = .error e) :
    (CheckSystemPods.namespaceLoop client cfg l f s).2 = none := by
  induction l generalizing f s with
  | nil => simp at h
  | cons ns rest ih =>
    unfold CheckSystemPods.namespaceLoop
    by_cases hsys : IsSystemNamespace ns.Name cfg = true
    · cases hp : client.ListPods ns.Name with
      | error e => simp [hsys]
      | ok pods =>
        simp only [hsys, Bool.not_true, Bool.false_eq_true, if_false]
        apply ih
        obtain ⟨n, hn, hs, e, he⟩ := h
        rcases List.mem_cons.mp hn with rfl | hn
        · rw [hp] at he; cases he
        · exact ⟨n, hn, hs, e, he⟩
    · obtain ⟨n, hn, hs, e, he⟩ := h
      simp only [Bool.not_eq_true] at hsys
      simp only [hsys, Bool.not_false, if_true]
      apply ih
      rcases List.mem_cons.mp hn with rfl | hn
      · rw [hsys] at hs; cases hs
      · exact ⟨n, hn, hs, e, he⟩

/-- When every pod list the outer loop asks for succeeds, the loop runs to its
end and `failing` is the disjunction over all pods of all system namespaces. -/
theorem namespaceLoop_some_of_ok (client : Client) (cfg : Config) (l : List Namespace)
    (f : Bool) (s : State)
    (h : ∀ ns ∈ l, IsSystemNamespace ns.Name cfg = true →
      ∃ pods, client.ListPods ns.Name = .ok pods) :
    (CheckSystemPods.namespaceLoop client cfg l f s).2 =
      some (f || l.any (fun ns => IsSystemNamespace ns.Name cfg &&
        match client.ListPods ns.Name with
        | .ok pods => pods.any isPodFailing
        | .error _ => false)) := by
  induction l generalizing f s with
  | nil => simp [CheckSystemPods.namespaceLoop]
  | cons ns rest ih =>
    have hrest : ∀ n ∈ rest, IsSystemNamespace n.Name cfg = true →
        ∃ pods, client.ListPods n.Name = .ok pods :=
      fun n hn => h n (List.mem_cons_of_mem _ hn)
    unfold CheckSystemPods.namespaceLoop
    by_cases hsys : IsSystemNamespace ns.Name cfg = true
    · obtain ⟨pods, hp⟩ := h ns (List.mem_cons_self _ _) hsys
      simp only [hsys, Bool.not_true, Bool.false_eq_true, if_false, hp]
      rw [ih _ _ hrest, CheckSystemPods_podLoop_eq]
      simp [hsys, hp, Bool.or_assoc]
    · simp only [Bool.not_eq_true] at hsys
      simp only [hsys, Bool.not_false, if_true]
      rw [ih _ _ hrest]
      simp [hsys]

/-! ## Fail-closed error policy -/

/-- C6: when the fetch of a check unit returns an error (the operator list,
the get of the version resource, the node list, the namespace list, or the pod
list of a listed system namespace), the gauges after the unit are the gauges
before it with every gauge the unit owns set to 1: both operator gauges for
`CheckClusterOperators`, and every other gauge unchanged. -/
theorem fetch_error_sets_owned_gauges_only (client : Client) (cfg : Config) (s : State) :
    (∀ e, client.ListClusterOperators = .error e →
      (CheckClusterOperators client s).gauges =
        { s.gauges with ClusterOperatorsDegraded := 1, EtcdDegraded := 1 })
    ∧ (∀ e, client.GetClusterVersion "version" = .error e →
      (CheckClusterVersion client s).gauges =
        { s.gauges with ClusterVersionDegraded := 1 })
    ∧ (∀ e, client.ListNodes = .error e →
      (CheckNodes client s).gauges = { s.gauges with NodesNotReady := 1 })
    ∧ (∀ e, client.ListNamespaces = .error e →
      (CheckSystemPods client cfg s).gauges = { s.gauges with SystemPodsFailing := 1 })
    ∧ (∀ nsList, client.ListNamespaces = .ok nsList →
        (∃ ns ∈ nsList, IsSystemNamespace ns.Name cfg = true
          ∧ ∃ e, client.ListPods ns.Name = .error e) →
      (CheckSystemPods client cfg s).gauges = { s.gauges with SystemPodsFailing := 1 }) := by
  refine ⟨?_, ?_, ?_, ?_, ?_⟩
  · intro e he
    simp [CheckClusterOperators, he, State.setClusterOperatorsDegraded,
      State.setEtcdDegraded, State.request]
  · intro e he
    simp [CheckClusterVersion, he, State.setClusterVersionDegraded, State.request]
  · intro e he
    simp [CheckNodes, he, State.setNodesNotReady, State.request]
  · intro e he
    simp [CheckSystemPods, he, State.setSystemPodsFailing, State.request]
  · intro nsList hns herr
    have hg := namespaceLoop_gauges client cfg nsList false
      (s.request Request.ListNamespaces)
    have hn := namespaceLoop_none_of_error client cfg nsList false
      (s.request Request.ListNamespaces) herr
    unfold CheckSystemPods
    simp only [hns]
    generalize CheckSystemPods.namespaceLoop client cfg nsList false
      (s.request Request.ListNamespaces) = r at hg hn
    obtain ⟨s1, o⟩ := r
    simp only at hn
    subst hn
    simpa [State.request] using hg

/-- C6 at the client whose every call fails, and at the client whose
namespace list succeeds and whose pod lists fail, starting from all gauges 0:
only the gauges of the failing unit become 1. -/
theorem fetch_error_sets_owned_gauges_only_witness :
    (CheckClusterOperators unreachableClient zeroState).gauges = ⟨1, 0, 0, 0, 1⟩
    ∧ (CheckClusterVersion unreachableClient zeroState).gauges = ⟨0, 0, 0, 1, 0⟩
    ∧ (CheckNodes unreachableClient zeroState).gauges = ⟨0, 1, 0, 0, 0⟩
    ∧ (CheckSystemPods unreachableClient defaultConfig zeroState).gauges = ⟨0, 0, 1, 0, 0⟩
    ∧ (CheckSystemPods podListFailsClient defaultConfig zeroState).gauges
        = ⟨0, 0, 1, 0, 0⟩ :=
  ⟨(fetch_error_sets_owned_gauges_only unreachableClient defaultConfig zeroState).1
      "unreachable" rfl,
   (fetch_error_sets_owned_gauges_only unreachableClient defaultConfig zeroState).2.1
      "unreachable" rfl,
   (fetch_error_sets_owned_gauges_only unreachableClient defaultConfig zeroState).2.2.1
      "unreachable" rfl,
   (fetch_error_sets_owned_gauges_only unreachableClient defaultConfig zeroState).2.2.2.1
      "unreachable" rfl,
   (fetch_error_sets_owned_gauges_only podListFailsClient defaultConfig zeroState).2.2.2.2
      [⟨"my-app"⟩, ⟨"openshift-etcd"⟩] rfl
      ⟨⟨"openshift-etcd"⟩, by simp, by decide, "unreachable", rfl⟩⟩

/-! ## The operator unit and the node unit on a successful list -/

theorem CheckClusterOperators_ok_gauges (client : Client) (s : State)
    (ops : List ClusterOperator) (h : client.ListClusterOperators = .ok ops) :
    (CheckClusterOperators client s).gauges =
      { s.gauges with
        ClusterOperatorsDegraded :=
          if ops.any (fun op => decide (op.Name ≠ "etcd") && isOperatorDegraded op)
          then 1 else 0,
        EtcdDegraded :=
          if ops.any (fun op => decide (op.Name = "etcd") && isOperatorDegraded op)
          then 1 else 0 } := by
  unfold CheckClusterOperators
  simp only [h, CheckClusterOperators_loop_eq, Bool.false_or]
  cases ops.any (fun op => decide (op.Name ≠ "etcd") && isOperatorDegraded op) <;>
    cases ops.any (fun op => decide (op.Name = "etcd") && isOperatorDegraded op) <;>
    simp [State.setClusterOperatorsDegraded, State.setEtcdDegraded, State.request]

theorem CheckNodes_ok_gauges (client : Client) (s : State)
    (nodes : List Node) (h : client.ListNodes = .ok nodes) :
    (CheckNodes client s).gauges =
      { s.gauges with
        NodesNotReady := if nodes.any (fun n => !isNodeReady n) then 1 else 0 } := by
  unfold CheckNodes
  simp only [h, CheckNodes_loop_eq, Bool.false_or]
  cases nodes.any (fun n => !isNodeReady n) <;>
    simp [State.setNodesNotReady, State.request]

/-- C7: on a successfully listed collection of operators,
`CheckClusterOperators` sets `EtcdDegraded` to 1 iff some operator named
`etcd` is degraded and to 0 otherwise, and `ClusterOperatorsDegraded` to 1 iff
some operator not named `etcd` is degraded and to 0 otherwise; when an
operator named `etcd` has Available=False and no other operator has a
Degraded=True or Available=False condition, the gauges are 1 and 0. -/
theorem CheckClusterOperators_partitions_by_name (client : Client) (s : State)
    (ops : List ClusterOperator) (h : client.ListClusterOperators = .ok ops) :
    ((CheckClusterOperators client s).gauges.EtcdDegraded = 1 ↔
        ∃ op ∈ ops, op.Name = "etcd" ∧ isOperatorDegraded op = true)
    ∧ ((CheckClusterOperators client s).gauges.EtcdDegraded = 0 ↔
        ¬ ∃ op ∈ ops, op.Name = "etcd" ∧ isOperatorDegraded op = true)
    ∧ ((CheckClusterOperators client s).gauges.ClusterOperatorsDegraded = 1 ↔
        ∃ op ∈ ops, op.Name ≠ "etcd" ∧ isOperatorDegraded op = true)
    ∧ ((CheckClusterOperators client s).gauges.ClusterOperatorsDegraded = 0 ↔
        ¬ ∃ op ∈ ops, op.Name ≠ "etcd" ∧ isOperatorDegraded op = true)
    ∧ ((∃ op ∈ ops, op.Name = "etcd"
          ∧ ∃ c ∈ op.Conditions, c.Type_ = "Available" ∧ c.Status = "False") →
        (∀ op ∈ ops, op.Name ≠ "etcd" → ∀ c ∈ op.Conditions,
          ¬ (c.Type_ = "Degraded" ∧ c.Status = "True")
          ∧ ¬ (c.Type_ = "Available" ∧ c.Status = "False")) →
        (CheckClusterOperators client s).gauges.EtcdDegraded = 1
        ∧ (CheckClusterOperators client s).gauges.ClusterOperatorsDegraded = 0) := by
  have hE : ops.any (fun op => decide (op.Name = "etcd") && isOperatorDegraded op) = true ↔
      ∃ op ∈ ops, op.Name = "etcd" ∧ isOperatorDegraded op = true := by
    simp [List.any_eq_true]
  have hO : ops.any (fun op => decide (op.Name ≠ "etcd") && isOperatorDegraded op) = true ↔
      ∃ op ∈ ops, op.Name ≠ "etcd" ∧ isOperatorDegraded op = true := by
    simp [List.any_eq_true]
  rw [CheckClusterOperators_ok_gauges client s ops h, ← hE, ← hO]
  refine ⟨?_, ?_, ?_, ?_, ?_⟩
  · cases ops.any (fun op => decide (op.Name = "etcd") && isOperatorDegraded op) <;> simp
  · cases ops.any (fun op => decide (op.Name = "etcd") && isOperatorDegraded op) <;> simp
  · cases ops.any (fun op => decide (op.Name ≠ "etcd") && isOperatorDegraded op) <;> simp
  · cases ops.any (fun op => decide (op.Name ≠ "etcd") && isOperatorDegraded op) <;> simp
  · rintro ⟨op, hop, hname, c, hc, hct, hcs⟩ hothers
    have h1 : ops.any (fun op => decide (op.Name = "etcd") && isOperatorDegraded op) = true :=
      hE.mpr ⟨op, hop, hname,
        (isOperatorDegraded_loop_iff op.Conditions).mpr ⟨c, hc, Or.inr ⟨hct, hcs⟩⟩⟩
    have h2 : ops.any (fun op => decide (op.Name ≠ "etcd") && isOperatorDegraded op) = false := by
      rw [← Bool.not_eq_true, hO]
      rintro ⟨o, ho, hn, hd⟩
      obtain ⟨c, hc, hcase⟩ := (isOperatorDegraded_loop_iff o.Conditions).mp hd
      rcases hcase with hcase | hcase
      · exact (hothers o ho hn c hc).1 hcase
      · exact (hothers o ho hn c hc).2 hcase
    rw [h1, h2]
    exact ⟨rfl, rfl⟩

/-- C7 at the list `console` (healthy), `etcd` (Available=False), `dns`
(healthy), starting from all gauges 7: `EtcdDegraded` becomes 1 and
`ClusterOperatorsDegraded` becomes 0. -/
theorem CheckClusterOperators_partitions_by_name_witness :
    (CheckClusterOperators
        { unreachableClient with ListClusterOperators := .ok etcdDownOperators }
        sevenState).gauges.EtcdDegraded = 1
    ∧ (CheckClusterOperators
        { unreachableClient with ListClusterOperators := .ok etcdDownOperators }
        sevenState).gauges.ClusterOperatorsDegraded = 0 :=
  (CheckClusterOperators_partitions_by_name
      { unreachableClient with ListClusterOperators := .ok etcdDownOperators }
      sevenState etcdDownOperators rfl).2.2.2.2
    ⟨⟨"etcd", [⟨"Available", "False", "no quorum"⟩]⟩, by simp [etcdDownOperators],
      rfl, ⟨"Available", "False", "no quorum"⟩, by simp, rfl, rfl⟩
    (by decide)

theorem isNodeReady_loop_all_ready_true (l : List NodeCondition)
    (hex : ∃ c ∈ l, c.Type_ = "Ready")
    (hall : ∀ c ∈ l, c.Type_ = "Ready" → c.Status = "True") :
    isNodeReady.loop l = true := by
  induction l with
  | nil => simp at hex
  | cons a as ih =>
    unfold isNodeReady.loop
    simp only [NodeReady, ConditionTrue]
    by_cases ha : a.Type_ = "Ready"
    · simp [ha, hall a (List.mem_cons_self _ _) ha]
    · simp only [ha, if_false]
      apply ih
      · obtain ⟨c, hc, ht⟩ := hex
        rcases List.mem_cons.mp hc with rfl | hc
        · exact absurd ht ha
        · exact ⟨c, hc, ht⟩
      · exact fun c hc => hall c (List.mem_cons_of_mem _ hc)

/-- C8: on a successfully listed collection of nodes, `CheckNodes` sets
`NodesNotReady` to 1 iff some listed node is not ready according to
`isNodeReady`, and to 0 otherwise, in particular for the empty list; three
nodes none of which has a Ready=True condition give 1, and three nodes each
having a Ready condition, all of them with status True, give 0. -/
theorem CheckNodes_or_of_not_ready (client : Client) (s : State)
    (nodes : List Node) (h : client.ListNodes = .ok nodes) :
    ((CheckNodes client s).gauges.NodesNotReady = 1 ↔
        ∃ n ∈ nodes, isNodeReady n = false)
    ∧ ((CheckNodes client s).gauges.NodesNotReady = 0 ↔
        ¬ ∃ n ∈ nodes, isNodeReady n = false)
    ∧ (nodes = [] → (CheckNodes client s).gauges.NodesNotReady = 0)
    ∧ (∀ n1 n2 n3, nodes = [n1, n2, n3] →
        (∀ n ∈ nodes, ¬ ∃ c ∈ n.Conditions, c.Type_ = "Ready" ∧ c.Status = "True") →
        (CheckNodes client s).gauges.NodesNotReady = 1)
    ∧ (∀ n1 n2 n3, nodes = [n1, n2, n3] →
        (∀ n ∈ nodes, (∃ c ∈ n.Conditions, c.Type_ = "Ready")
          ∧ ∀ c ∈ n.Conditions, c.Type_ = "Ready" → c.Status = "True") →
        (CheckNodes client s).gauges.NodesNotReady = 0) := by
  have hN : nodes.any (fun n => !isNodeReady n) = true ↔
      ∃ n ∈ nodes, isNodeReady n = false := by
    simp [List.any_eq_true]
  have h1 : (CheckNodes client s).gauges.NodesNotReady = 1 ↔
      ∃ n ∈ nodes, isNodeReady n = false := by
    rw [CheckNodes_ok_gauges client s nodes h, ← hN]
    cases nodes.any (fun n => !isNodeReady n) <;> simp
  have h0 : (CheckNodes client s).gauges.NodesNotReady = 0 ↔
      ¬ ∃ n ∈ nodes, isNodeReady n = false := by
    rw [CheckNodes_ok_gauges client s nodes h, ← hN]
    cases nodes.any (fun n => !isNodeReady n) <;> simp
  refine ⟨h1, h0, ?_, ?_, ?_⟩
  · intro hnil
    rw [h0, hnil]
    simp
  · intro n1 n2 n3 hl hnone
    rw [h1]
    refine ⟨n1, by simp [hl], ?_⟩
    cases hb : isNodeReady n1 with
    | false => rfl
    | true =>
      exact absurd (isNodeReady_loop_true_mem n1.Conditions hb) (hnone n1 (by simp [hl]))
  · intro n1 n2 n3 _ hall
    rw [h0]
    rintro ⟨n, hn, hfalse⟩
    have htrue : isNodeReady n = true :=
      isNodeReady_loop_all_ready_true n.Conditions (hall n hn).1 (hall n hn).2
    rw [hfalse] at htrue
    exact Bool.false_ne_true htrue

/-- C8 at three nodes with Ready=False, Ready=Unknown, Ready=False (gauge 1)
and at three nodes with Ready=True (gauge 0), starting from all gauges 7. -/
theorem CheckNodes_or_of_not_ready_witness :
    (CheckNodes
        { unreachableClient with
          ListNodes := .ok [nodeWithReady "a" "False", nodeWithReady "b" "Unknown",
            nodeWithReady "c" "False"] }
        sevenState).gauges.NodesNotReady = 1
    ∧ (CheckNodes
        { unreachableClient with
          ListNodes := .ok [nodeWithReady "a" "True", nodeWithReady "b" "True",
            nodeWithReady "c" "True"] }
        sevenState).gauges.NodesNotReady = 0 :=
  ⟨(CheckNodes_or_of_not_ready
        { unreachableClient with
          ListNodes := .ok [nodeWithReady "a" "False", nodeWithReady "b" "Unknown",
            nodeWithReady "c" "False"] }
        sevenState _ rfl).2.2.2.1 _ _ _ rfl (by decide),
   (CheckNodes_or_of_not_ready
        { unreachableClient with
          ListNodes := .ok [nodeWithReady "a" "True", nodeWithReady "b" "True",
            nodeWithReady "c" "True"] }
        sevenState _ rfl).2.2.2.2 _ _ _ rfl (by decide)⟩

/-! ## The pod unit on successful lists -/

/-- The outer loop of the pod unit reads the pod lists of system namespaces
only. -/
theorem namespaceLoop_congr (client client' : Client) (cfg : Config)
    (hpods : ∀ name, IsSystemNamespace name cfg = true →
      client.ListPods name = client'.ListPods name)
    (l : List Namespace) (f : Bool) (s : State) :
    CheckSystemPods.namespaceLoop client cfg l f s =
      CheckSystemPods.namespaceLoop client' cfg l f s := by
  induction l generalizing f s with
  | nil => rfl
  | cons ns rest ih =>
    unfold CheckSystemPods.namespaceLoop
    by_cases hsys : IsSystemNamespace ns.Name cfg = true
    · simp only [hsys, Bool.not_true, Bool.false_eq_true, if_false, ← hpods ns.Name hsys]
      cases client.ListPods ns.Name with
      | error e => rfl
      | ok pods => exact ih _ _
    · simp only [Bool.not_eq_true] at hsys
      simp only [hsys, Bool.not_false, if_true]
      exact ih f s

theorem CheckSystemPods_ok_gauges (client : Client) (cfg : Config) (s : State)
    (nsList : List Namespace) (hns : client.ListNamespaces = .ok nsList)
    (hpods : ∀ ns ∈ nsList, IsSystemNamespace ns.Name cfg = true →
      ∃ pods, client.ListPods ns.Name = .ok pods) :
    (CheckSystemPods client cfg s).gauges =
      { s.gauges with
        SystemPodsFailing :=
          if nsList.any (fun ns => IsSystemNamespace ns.Name cfg &&
            match client.ListPods ns.Name with
            | .ok pods => pods.any isPodFailing
            | .error _ => false)
          then 1 else 0 } := by
  have hg := namespaceLoop_gauges client cfg nsList false
    (s.request Request.ListNamespaces)
  have hn := namespaceLoop_some_of_ok client cfg nsList false
    (s.request Request.ListNamespaces) hpods
  unfold CheckSystemPods
  simp only [hns]
  generalize CheckSystemPods.namespaceLoop client cfg nsList false
    (s.request Request.ListNamespaces) = r at hg hn
  obtain ⟨s1, o⟩ := r
  simp only [Bool.false_or] at hn
  subst hn
  simp only [State.request] at hg
  cases nsList.any (fun ns => IsSystemNamespace ns.Name cfg &&
      match client.ListPods ns.Name with
      | .ok pods => pods.any isPodFailing
      | .error _ => false) <;>
    simp [State.setSystemPodsFailing, hg]

theorem any_system_pod_failing_iff (client : Client) (cfg : Config)
    (nsList : List Namespace) :
    nsList.any (fun ns => IsSystemNamespace ns.Name cfg &&
        match client.ListPods ns.Name with
        | .ok pods => pods.any isPodFailing
        | .error _ => false) = true ↔
      ∃ ns ∈ nsList, IsSystemNamespace ns.Name cfg = true
        ∧ ∃ pods, client.ListPods ns.Name = .ok pods
          ∧ ∃ pod ∈ pods, isPodFailing pod = true := by
  simp only [List.any_eq_true, Bool.and_eq_true]
  constructor
  · rintro ⟨ns, hmem, hsys, hm⟩
    refine ⟨ns, hmem, hsys, ?_⟩
    cases hp : client.ListPods ns.Name with
    | error e => rw [hp] at hm; cases hm
    | ok pods =>
      rw [hp] at hm
      obtain ⟨pod, hpod, hf⟩ := List.any_eq_true.mp hm
      exact ⟨pods, rfl, pod, hpod, hf⟩
  · rintro ⟨ns, hmem, hsys, pods, hp, pod, hpod, hf⟩
    refine ⟨ns, hmem, hsys, ?_⟩
    rw [hp]
    exact List.any_eq_true.mpr ⟨pod, hpod, hf⟩

theorem CheckSystemPods_ok_iff (client : Client) (cfg : Config) (s : State)
    (nsList : List Namespace) (hns : client.ListNamespaces = .ok nsList)
    (hpods : ∀ ns ∈ nsList, IsSystemNamespace ns.Name cfg = true →
      ∃ pods, client.ListPods ns.Name = .ok pods) :
    ((CheckSystemPods client cfg s).gauges.SystemPodsFailing = 1 ↔
        ∃ ns ∈ nsList, IsSystemNamespace ns.Name cfg = true
          ∧ ∃ pods, client.ListPods ns.Name = .ok pods
            ∧ ∃ pod ∈ pods, isPodFailing pod = true)
    ∧ ((CheckSystemPods client cfg s).gauges.SystemPodsFailing = 0 ↔
        ¬ ∃ ns ∈ nsList, IsSystemNamespace ns.Name cfg = true
          ∧ ∃ pods, client.ListPods ns.Name = .ok pods
            ∧ ∃ pod ∈ pods, isPodFailing pod = true) := by
  rw [CheckSystemPods_ok_gauges client cfg s nsList hns hpods,
    ← any_system_pod_failing_iff client cfg nsList]
  cases nsList.any (fun ns => IsSystemNamespace ns.Name cfg &&
      match client.ListPods ns.Name with
      | .ok pods => pods.any isPodFailing
      | .error _ => false) <;> simp

/-- C9: when the namespace list and every pod list asked for succeed,
`CheckSystemPods` sets `SystemPodsFailing` to 1 iff some listed namespace that
`IsSystemNamespace` classifies as system holds a pod with `isPodFailing`, and
to 0 otherwise; the outcome does not depend on the pod lists of namespaces
that are not system namespaces; under the default rule a pod with a container
waiting with OOMKilled in `openshift-etcd` gives 1, and a cluster whose only
namespace is `my-app` gives 0 whatever its pods are. -/
theorem CheckSystemPods_or_over_system_namespaces :
    (∀ (client : Client) (cfg : Config) (s : State) (nsList : List Namespace),
      client.ListNamespaces = .ok nsList →
      (∀ ns ∈ nsList, IsSystemNamespace ns.Name cfg = true →
        ∃ pods, client.ListPods ns.Name = .ok pods) →
      ((CheckSystemPods client cfg s).gauges.SystemPodsFailing = 1 ↔
          ∃ ns ∈ nsList, IsSystemNamespace ns.Name cfg = true
            ∧ ∃ pods, client.ListPods ns.Name = .ok pods
              ∧ ∃ pod ∈ pods, isPodFailing pod = true)
      ∧ ((CheckSystemPods client cfg s).gauges.SystemPodsFailing = 0 ↔
          ¬ ∃ ns ∈ nsList, IsSystemNamespace ns.Name cfg = true
            ∧ ∃ pods, client.ListPods ns.Name = .ok pods
              ∧ ∃ pod ∈ pods, isPodFailing pod = true))
    ∧ (∀ (client client' : Client) (cfg : Config) (s : State),
        client.ListNamespaces = client'.ListNamespaces →
        (∀ name, IsSystemNamespace name cfg = true →
          client.ListPods name = client'.ListPods name) →
        CheckSystemPods client cfg s = CheckSystemPods client' cfg s)
    ∧ (∀ (client : Client) (s : State) (pod : Pod) (cs : ContainerStatus),
        client.ListNamespaces = .ok [⟨"openshift-etcd"⟩] →
        client.ListPods "openshift-etcd" = .ok [pod] →
        cs ∈ pod.ContainerStatuses → cs.State.Waiting = some ⟨"OOMKilled"⟩ →
        (CheckSystemPods client defaultConfig s).gauges.SystemPodsFailing = 1)
    ∧ (∀ (client : Client) (s : State),
        client.ListNamespaces = .ok [⟨"my-app"⟩] →
        (CheckSystemPods client defaultConfig s).gauges.SystemPodsFailing = 0) := by
  refine ⟨CheckSystemPods_ok_iff, ?_, ?_, ?_⟩
  · intro client client' cfg s hns hpods
    unfold CheckSystemPods
    rw [← hns]
    cases client.ListNamespaces with
    | error e => rfl
    | ok nsList => simp only [namespaceLoop_congr client client' cfg hpods]
  · intro client s pod cs hns hp hcs hw
    have hsys : IsSystemNamespace "openshift-etcd" defaultConfig = true := by decide
    have hok : ∀ ns ∈ [(⟨"openshift-etcd"⟩ : Namespace)],
        IsSystemNamespace ns.Name defaultConfig = true →
        ∃ pods, client.ListPods ns.Name = .ok pods := by
      intro ns hmem _
      rw [List.mem_singleton.mp hmem]
      exact ⟨[pod], hp⟩
    refine (CheckSystemPods_ok_iff client defaultConfig s _ hns hok).1.mpr
      ⟨⟨"openshift-etcd"⟩, by simp, hsys, [pod], hp, pod, by simp, ?_⟩
    rw [isPodFailing_iff_aux]
    exact Or.inr ⟨cs, Or.inl hcs,
      (isContainerFailing_iff cs).mpr (Or.inl ⟨⟨"OOMKilled"⟩, hw, by simp⟩)⟩
  · intro client s hns
    have hsys : IsSystemNamespace "my-app" defaultConfig = false := by decide
    have hok : ∀ ns ∈ [(⟨"my-app"⟩ : Namespace)],
        IsSystemNamespace ns.Name defaultConfig = true →
        ∃ pods, client.ListPods ns.Name = .ok pods := by
      intro ns hmem hs
      rw [List.mem_singleton.mp hmem, hsys] at hs
      cases hs
    refine (CheckSystemPods_ok_iff client defaultConfig s _ hns hok).2.mpr ?_
    rintro ⟨ns, hmem, hs, -⟩
    rw [List.mem_singleton.mp hmem, hsys] at hs
    cases hs

/-- C9 at the cluster whose only namespace holds a pod with a container
waiting with OOMKilled: the gauge is 1 when the namespace is `openshift-etcd`
and 0 when it is `my-app`, starting from all gauges 7. -/
theorem CheckSystemPods_or_over_system_namespaces_witness :
    (CheckSystemPods (singleNamespaceClient "openshift-etcd") defaultConfig
        sevenState).gauges.SystemPodsFailing = 1
    ∧ (CheckSystemPods (singleNamespaceClient "my-app") defaultConfig
        sevenState).gauges.SystemPodsFailing = 0 :=
  ⟨(CheckSystemPods_or_over_system_namespaces.1
        (singleNamespaceClient "openshift-etcd") defaultConfig sevenState
        [⟨"openshift-etcd"⟩] rfl
        (by intro ns hmem _; rw [List.mem_singleton.mp hmem]
            exact ⟨[oomPod "openshift-etcd"], rfl⟩)).1.mpr
      ⟨⟨"openshift-etcd"⟩, by simp, by decide, [oomPod "openshift-etcd"], rfl,
        oomPod "openshift-etcd", by simp, by decide⟩,
   (CheckSystemPods_or_over_system_namespaces.1
        (singleNamespaceClient "my-app") defaultConfig sevenState
        [⟨"my-app"⟩] rfl
        (by intro ns hmem _; rw [List.mem_singleton.mp hmem]
            exact ⟨[oomPod "my-app"], rfl⟩)).2.mpr
      (by
        rintro ⟨ns, hmem, hs, -⟩
        rw [List.mem_singleton.mp hmem] at hs
        exact absurd hs (by decide))⟩

/-! ## The version unit -/

/-- C10: `CheckClusterVersion` makes exactly one API call, the get of the
resource named `version`; when that get succeeds, `ClusterVersionDegraded` is
set to 1 iff the returned resource has a Degraded=True or an Available=False
condition and to 0 otherwise; when it fails, whatever the error, the gauge is
set to 1. -/
theorem CheckClusterVersion_get_version (client : Client) (s : State) :
    (CheckClusterVersion client s).requests
        = s.requests ++ [Request.GetClusterVersion "version"]
    ∧ (∀ cv, client.GetClusterVersion "version" = .ok cv →
        ((CheckClusterVersion client s).gauges.ClusterVersionDegraded = 1 ↔
          ∃ c ∈ cv.Conditions, (c.Type_ = "Degraded" ∧ c.Status = "True")
            ∨ (c.Type_ = "Available" ∧ c.Status = "False"))
        ∧ ((CheckClusterVersion client s).gauges.ClusterVersionDegraded = 0 ↔
          ¬ ∃ c ∈ cv.Conditions, (c.Type_ = "Degraded" ∧ c.Status = "True")
            ∨ (c.Type_ = "Available" ∧ c.Status = "False")))
    ∧ (∀ e, client.GetClusterVersion "version" = .error e →
        (CheckClusterVersion client s).gauges.ClusterVersionDegraded = 1) := by
  refine ⟨?_, ?_, ?_⟩
  · unfold CheckClusterVersion
    cases client.GetClusterVersion "version" with
    | error e => rfl
    | ok cv => cases hd : isClusterVersionDegraded cv <;> simp [hd] <;> rfl
  · intro cv hcv
    have hiff : isClusterVersionDegraded cv = true ↔
        ∃ c ∈ cv.Conditions, (c.Type_ = "Degraded" ∧ c.Status = "True")
          ∨ (c.Type_ = "Available" ∧ c.Status = "False") := by
      unfold isClusterVersionDegraded
      rw [isClusterVersionDegraded_loop_eq]
      exact isOperatorDegraded_loop_iff cv.Conditions
    rw [← hiff]
    unfold CheckClusterVersion
    simp only [hcv]
    cases isClusterVersionDegraded cv <;>
      simp [State.setClusterVersionDegraded]
  · intro e he
    unfold CheckClusterVersion
    simp [he, State.setClusterVersionDegraded]

/-- C10 at a client whose version resource has Available=True (gauge 0) and
at the client whose every call fails (gauge 1), starting from all gauges 7. -/
theorem CheckClusterVersion_get_version_witness :
    (CheckClusterVersion (singleNamespaceClient "my-app")
        sevenState).gauges.ClusterVersionDegraded = 0
    ∧ (CheckClusterVersion unreachableClient sevenState).gauges.ClusterVersionDegraded = 1 :=
  ⟨((CheckClusterVersion_get_version (singleNamespaceClient "my-app") sevenState).2.1
        ⟨"version", [⟨"Available", "True", ""⟩]⟩ rfl).2.mpr (by decide),
   (CheckClusterVersion_get_version unreachableClient sevenState).2.2 "unreachable" rfl⟩

/-! ## A cycle overwrites every gauge -/

/-- The operator unit overwrites its two gauges with values in {0, 1} that
depend on the API responses only, and leaves the other gauges alone. -/
theorem CheckClusterOperators_overwrites (client : Client) :
    ∃ a b : Int, (a = 0 ∨ a = 1) ∧ (b = 0 ∨ b = 1) ∧ ∀ s : State,
      (CheckClusterOperators client s).gauges =
        { s.gauges with ClusterOperatorsDegraded := a, EtcdDegraded := b } := by
  cases h : client.ListClusterOperators with
  | error e =>
    refine ⟨1, 1, Or.inr rfl, Or.inr rfl, fun s => ?_⟩
    simp [CheckClusterOperators, h, State.setClusterOperatorsDegraded,
      State.setEtcdDegraded, State.request]
  | ok ops =>
    refine ⟨if ops.any (fun op => decide (op.Name ≠ "etcd") && isOperatorDegraded op)
        then 1 else 0,
      if ops.any (fun op => decide (op.Name = "etcd") && isOperatorDegraded op)
        then 1 else 0, ?_, ?_, fun s => CheckClusterOperators_ok_gauges client s ops h⟩
    · split <;> simp
    · split <;> simp

/-- The version unit overwrites its gauge with a value in {0, 1} that depends
on the API responses only, and leaves the other gauges alone. -/
theorem CheckClusterVersion_overwrites (client : Client) :
    ∃ v : Int, (v = 0 ∨ v = 1) ∧ ∀ s : State,
      (CheckClusterVersion client s).gauges =
        { s.gauges with ClusterVersionDegraded := v } := by
  cases h : client.GetClusterVersion "version" with
  | error e =>
    refine ⟨1, Or.inr rfl, fun s => ?_⟩
    simp [CheckClusterVersion, h, State.setClusterVersionDegraded, State.request]
  | ok cv =>
    cases hd : isClusterVersionDegraded cv with
    | true =>
      refine ⟨1, Or.inr rfl, fun s => ?_⟩
      simp [CheckClusterVersion, h, hd, State.setClusterVersionDegraded, State.request]
    | false =>
      refine ⟨0, Or.inl rfl, fun s => ?_⟩
      simp [CheckClusterVersion, h, hd, State.setClusterVersionDegraded, State.request]

/-- The node unit overwrites its gauge with a value in {0, 1} that depends on
the API responses only, and leaves the other gauges alone. -/
theorem CheckNodes_overwrites (client : Client) :
    ∃ v : Int, (v = 0 ∨ v = 1) ∧ ∀ s : State,
      (CheckNodes client s).gauges = { s.gauges with NodesNotReady := v } := by
  cases h : client.ListNodes with
  | error e =>
    refine ⟨1, Or.inr rfl, fun s => ?_⟩
    simp [CheckNodes, h, State.setNodesNotReady, State.request]
  | ok nodes =>
    refine ⟨if nodes.any (fun n => !isNodeReady n) then 1 else 0, ?_,
      fun s => CheckNodes_ok_gauges client s nodes h⟩
    split <;> simp

/-- Whether the outer loop of the pod unit returns early, and the flag it ends
with, do not depend on the state it starts from. -/
theorem namespaceLoop_flag_state_indep (client : Client) (cfg : Config)
    (l : List Namespace) (f : Bool) (s s' : State) :
    (CheckSystemPods.namespaceLoop client cfg l f s).2 =
      (CheckSystemPods.namespaceLoop client cfg l f s').2 := by
  induction l generalizing f s s' with
  | nil => rfl
  | cons ns rest ih =>
    unfold CheckSystemPods.namespaceLoop
    by_cases hsys : IsSystemNamespace ns.Name cfg = true
    · simp only [hsys, Bool.not_true, Bool.false_eq_true, if_false]
      cases client.ListPods ns.Name with
      | error e => rfl
      | ok pods => exact ih _ _ _
    · simp only [Bool.not_eq_true] at hsys
      simp only [hsys, Bool.not_false, if_true]
      exact ih f s s'

/-- The pod unit overwrites its gauge with a value in {0, 1} that depends on
the API responses and the configuration only, and leaves the other gauges
alone. -/
theorem CheckSystemPods_overwrites (client : Client) (cfg : Config) :
    ∃ v : Int, (v = 0 ∨ v = 1) ∧ ∀ s : State,
      (CheckSystemPods client cfg s).gauges = { s.gauges with SystemPodsFailing := v } := by
  cases h : client.ListNamespaces with
  | error e =>
    refine ⟨1, Or.inr rfl, fun s => ?_⟩
    simp [CheckSystemPods, h, State.setSystemPodsFailing, State.request]
  | ok nsList =>
    have key : ∀ (o : Option Bool),
        (CheckSystemPods.namespaceLoop client cfg nsList false zeroState).2 = o →
        ∀ s : State, (CheckSystemPods client cfg s).gauges =
          { s.gauges with SystemPodsFailing :=
              match o with
              | none => 1
              | some true => 1
              | some false => 0 } := by
      intro o ho s
      have hg := namespaceLoop_gauges client cfg nsList false
        (s.request Request.ListNamespaces)
      have hf := namespaceLoop_flag_state_indep client cfg nsList false
        (s.request Request.ListNamespaces) zeroState
      rw [ho] at hf
      unfold CheckSystemPods
      simp only [h]
      generalize CheckSystemPods.namespaceLoop client cfg nsList false
        (s.request Request.ListNamespaces) = r at hg hf
      obtain ⟨s1, o1⟩ := r
      simp only at hf
      subst hf
      simp only [State.request] at hg
      cases o1 with
      | none => simpa using hg
      | some b => cases b <;> simp [State.setSystemPodsFailing, hg]
    cases ho : (CheckSystemPods.namespaceLoop client cfg nsList false zeroState).2 with
    | none => exact ⟨1, Or.inr rfl, key none ho⟩
    | some b =>
      cases b with
      | true => exact ⟨1, Or.inr rfl, key (some true) ho⟩
      | false => exact ⟨0, Or.inl rfl, key (some false) ho⟩

/-- After a cycle the five gauges hold values in {0, 1} that depend on the API
responses and the configuration only. -/
theorem RunChecks_overwrites (client : Client) (cfg : Config) :
    ∃ g : Gauges,
      (g.ClusterOperatorsDegraded = 0 ∨ g.ClusterOperatorsDegraded = 1)
      ∧ (g.NodesNotReady = 0 ∨ g.NodesNotReady = 1)
      ∧ (g.SystemPodsFailing = 0 ∨ g.SystemPodsFailing = 1)
      ∧ (g.ClusterVersionDegraded = 0 ∨ g.ClusterVersionDegraded = 1)
      ∧ (g.EtcdDegraded = 0 ∨ g.EtcdDegraded = 1)
      ∧ ∀ s : State, (RunChecks client cfg s).gauges = g := by
  obtain ⟨a, b, ha, hb, hops⟩ := CheckClusterOperators_overwrites client
  obtain ⟨v, hv, hver⟩ := CheckClusterVersion_overwrites client
  obtain ⟨n, hn, hnodes⟩ := CheckNodes_overwrites client
  obtain ⟨p, hp, hpods⟩ := CheckSystemPods_overwrites client cfg
  refine ⟨⟨a, n, p, v, b⟩, ha, hn, hp, hv, hb, fun s => ?_⟩
  unfold RunChecks
  simp only [hpods, hnodes, hver, hops]

/-- C11: running `RunChecks` a second time with the same API responses and
configuration leaves all five gauges with exactly the values they had after
the first run, whatever the gauges were before the first run. -/
theorem RunChecks_idempotent_on_gauges (client : Client) (cfg : Config) (s : State) :
    (RunChecks client cfg (RunChecks client cfg s)).gauges
      = (RunChecks client cfg s).gauges := by
  obtain ⟨g, -, -, -, -, -, hg⟩ := RunChecks_overwrites client cfg
  rw [hg, hg]

/-- C12: the gauges after `RunChecks` are determined by the API responses of
the cycle alone: from any two initial states the same responses give equal
gauge states; in particular, when every fetch fails, all five gauges are 1
whatever they were before. -/
theorem RunChecks_gauges_determined_by_responses :
    (∀ (client : Client) (cfg : Config) (s1 s2 : State),
      (RunChecks client cfg s1).gauges = (RunChecks client cfg s2).gauges)
    ∧ (∀ (cfg : Config) (s : State),
        (RunChecks unreachableClient cfg s).gauges = ⟨1, 1, 1, 1, 1⟩) := by
  constructor
  · intro client cfg s1 s2
    obtain ⟨g, -, -, -, -, -, hg⟩ := RunChecks_overwrites client cfg
    rw [hg, hg]
  · intro cfg s
    rfl

/-! ## Tie-break on repeated condition types -/

theorem firstOfEachType_go_subset (seen : List String)
    (l : List ClusterOperatorStatusCondition) :
    ∀ c ∈ firstOfEachType.go seen l, c ∈ l := by
  induction l generalizing seen with
  | nil => simp [firstOfEachType.go]
  | cons a as ih =>
    intro c hc
    unfold firstOfEachType.go at hc
    by_cases ha : a.Type_ ∈ seen
    · simp only [ha, if_true] at hc
      exact List.mem_cons_of_mem _ (ih seen c hc)
    · simp only [ha, if_false, List.mem_cons] at hc
      rcases hc with rfl | hc
      · exact List.mem_cons_self _ _
      · exact List.mem_cons_of_mem _ (ih _ c hc)

theorem firstOfEachType_go_eq_self (seen : List String)
    (l : List ClusterOperatorStatusCondition)
    (hnodup : (l.map (fun c => c.Type_)).Nodup)
    (hseen : ∀ c ∈ l, c.Type_ ∉ seen) :
    firstOfEachType.go seen l = l := by
  induction l generalizing seen with
  | nil => rfl
  | cons a as ih =>
    unfold firstOfEachType.go
    have ha : a.Type_ ∉ seen := hseen a (List.mem_cons_self _ _)
    simp only [List.map_cons, List.nodup_cons, List.mem_map, not_exists, not_and] at hnodup
    simp only [ha, if_false, List.cons.injEq, true_and]
    apply ih _ hnodup.2
    intro c hc hmem
    rcases List.mem_cons.mp hmem with h | h
    · exact hnodup.1 c hc h
    · exact hseen c (List.mem_cons_of_mem _ hc) h

/-- C18, the claim as stated fails: on `[Degraded=False, Degraded=True]` both
evaluators return true, while on the list with the later Degraded condition
removed, `[Degraded=False]`, both return false. -/
theorem degraded_not_decided_by_first_occurrence :
    isOperatorDegraded ⟨"op", [⟨"Degraded", "False", ""⟩, ⟨"Degraded", "True", ""⟩]⟩
      ≠ isOperatorDegraded
          ⟨"op", firstOfEachType [⟨"Degraded", "False", ""⟩, ⟨"Degraded", "True", ""⟩]⟩
    ∧ isClusterVersionDegraded
        ⟨"version", [⟨"Degraded", "False", ""⟩, ⟨"Degraded", "True", ""⟩]⟩
      ≠ isClusterVersionDegraded
          ⟨"version",
            firstOfEachType [⟨"Degraded", "False", ""⟩, ⟨"Degraded", "True", ""⟩]⟩ := by
  decide

/-- C18, amended: on every condition list, repeated types included, both
evaluators return a verdict, and it is degraded iff any condition of the list,
first of its type or not, is Degraded=True or Available=False; a degraded
verdict on the list without later repeats of a type gives a degraded verdict on
the full list; and the two verdicts agree when no type occurs twice. -/
theorem degraded_decided_by_any_occurrence (name : String)
    (l : List ClusterOperatorStatusCondition) :
    (isOperatorDegraded ⟨name, l⟩ = true ↔
        ∃ c ∈ l, (c.Type_ = "Degraded" ∧ c.Status = "True")
          ∨ (c.Type_ = "Available" ∧ c.Status = "False"))
    ∧ (isClusterVersionDegraded ⟨name, l⟩ = true ↔
        ∃ c ∈ l, (c.Type_ = "Degraded" ∧ c.Status = "True")
          ∨ (c.Type_ = "Available" ∧ c.Status = "False"))
    ∧ (isOperatorDegraded ⟨name, firstOfEachType l⟩ = true →
        isOperatorDegraded ⟨name, l⟩ = true)
    ∧ (isClusterVersionDegraded ⟨name, firstOfEachType l⟩ = true →
        isClusterVersionDegraded ⟨name, l⟩ = true)
    ∧ ((l.map (fun c => c.Type_)).Nodup →
        isOperatorDegraded ⟨name, l⟩ = isOperatorDegraded ⟨name, firstOfEachType l⟩
        ∧ isClusterVersionDegraded ⟨name, l⟩
            = isClusterVersionDegraded ⟨name, firstOfEachType l⟩) := by
  have hop : ∀ l', isOperatorDegraded ⟨name, l'⟩ = true ↔
      ∃ c ∈ l', (c.Type_ = "Degraded" ∧ c.Status = "True")
        ∨ (c.Type_ = "Available" ∧ c.Status = "False") :=
    fun l' => isOperatorDegraded_loop_iff l'
  have hcv : ∀ l', isClusterVersionDegraded ⟨name, l'⟩ = true ↔
      ∃ c ∈ l', (c.Type_ = "Degraded" ∧ c.Status = "True")
        ∨ (c.Type_ = "Available" ∧ c.Status = "False") := by
    intro l'
    unfold isClusterVersionDegraded
    rw [isClusterVersionDegraded_loop_eq]
    exact isOperatorDegraded_loop_iff l'
  refine ⟨hop l, hcv l, ?_, ?_, ?_⟩
  · intro h
    obtain ⟨c, hc, hcase⟩ := (hop _).mp h
    exact (hop l).mpr ⟨c, firstOfEachType_go_subset [] l c hc, hcase⟩
  · intro h
    obtain ⟨c, hc, hcase⟩ := (hcv _).mp h
    exact (hcv l).mpr ⟨c, firstOfEachType_go_subset [] l c hc, hcase⟩
  · intro hnodup
    have heq : firstOfEachType l = l :=
      firstOfEachType_go_eq_self [] l hnodup (by simp)
    rw [heq]
    exact ⟨rfl, rfl⟩

/-- C18, amended, at `[Available=False, Degraded=False]`, whose types are
distinct (both verdicts agree), and at `[Available=False, Available=True]`,
whose first-occurrence list `[Available=False]` is degraded (so is the full
list). -/
theorem degraded_decided_by_any_occurrence_witness :
    (isOperatorDegraded ⟨"op", [⟨"Available", "False", ""⟩, ⟨"Degraded", "False", ""⟩]⟩
        = isOperatorDegraded
            ⟨"op", firstOfEachType [⟨"Available", "False", ""⟩, ⟨"Degraded", "False", ""⟩]⟩
      ∧ isClusterVersionDegraded
          ⟨"op", [⟨"Available", "False", ""⟩, ⟨"Degraded", "False", ""⟩]⟩
        = isClusterVersionDegraded
            ⟨"op", firstOfEachType [⟨"Available", "False", ""⟩, ⟨"Degraded", "False", ""⟩]⟩)
    ∧ isOperatorDegraded ⟨"op", [⟨"Available", "False", ""⟩, ⟨"Available", "True", ""⟩]⟩
        = true :=
  ⟨(degraded_decided_by_any_occurrence "op"
      [⟨"Available", "False", ""⟩, ⟨"Degraded", "False", ""⟩]).2.2.2.2 (by decide),
   (degraded_decided_by_any_occurrence "op"
      [⟨"Available", "False", ""⟩, ⟨"Available", "True", ""⟩]).2.2.1 (by decide)⟩

theorem isNodeReady_loop_find (l : List NodeCondition) :
    isNodeReady.loop l =
      match l.find? (fun c => decide (c.Type_ = "Ready")) with
      | none => false
      | some c => decide (c.Status = "True") := by
  induction l with
  | nil => rfl
  | cons a as ih =>
    unfold isNodeReady.loop
    simp only [NodeReady, ConditionTrue, List.find?_cons]
    by_cases ha : a.Type_ = "Ready"
    · simp [ha]
    · simp [ha, ih]

theorem isNodeReady_loop_append (pre : List NodeCondition) (c : NodeCondition)
    (post : List NodeCondition) (hpre : ∀ d ∈ pre, d.Type_ ≠ "Ready")
    (hc : c.Type_ = "Ready") :
    isNodeReady.loop (pre ++ c :: post) = decide (c.Status = "True") := by
  induction pre with
  | nil => simp [isNodeReady.loop, NodeReady, ConditionTrue, hc]
  | cons a as ih =>
    have ha : a.Type_ ≠ "Ready" := hpre a (List.mem_cons_self _ _)
    simp only [List.cons_append, isNodeReady.loop, NodeReady, ha, if_false]
    exact ih (fun d hd => hpre d (List.mem_cons_of_mem _ hd))

/-- C19: `isNodeReady` is decided by the first condition of type Ready in list
order: the node is not ready iff there is no condition of type Ready or the
first one has a status other than True; the conditions after the first Ready
condition, further Ready conditions included, do not change the result. -/
theorem isNodeReady_decided_by_first_ready :
    (∀ node : Node,
      isNodeReady node = false ↔
        match node.Conditions.find? (fun c => decide (c.Type_ = "Ready")) with
        | none => True
        | some c => c.Status ≠ "True")
    ∧ (∀ (name : String) (pre : List NodeCondition) (c : NodeCondition)
        (post post' : List NodeCondition),
        (∀ d ∈ pre, d.Type_ ≠ "Ready") → c.Type_ = "Ready" →
        isNodeReady ⟨name, pre ++ c :: post⟩ = isNodeReady ⟨name, pre ++ c :: post'⟩
        ∧ (isNodeReady ⟨name, pre ++ c :: post⟩ = false ↔ c.Status ≠ "True")) := by
  constructor
  · intro node
    unfold isNodeReady
    rw [isNodeReady_loop_find]
    cases node.Conditions.find? (fun c => decide (c.Type_ = "Ready")) with
    | none => simp
    | some c => simp
  · intro name pre c post post' hpre hc
    unfold isNodeReady
    simp only [isNodeReady_loop_append pre c _ hpre hc]
    simp

/-- C19 at `[MemoryPressure=False, Ready=Unknown, Ready=True]` against
`[MemoryPressure=False, Ready=Unknown]`: the same result, not ready. -/
theorem isNodeReady_decided_by_first_ready_witness :
    isNodeReady ⟨"n", [⟨"MemoryPressure", "False"⟩, ⟨"Ready", "Unknown"⟩, ⟨"Ready", "True"⟩]⟩
      = isNodeReady ⟨"n", [⟨"MemoryPressure", "False"⟩, ⟨"Ready", "Unknown"⟩]⟩
    ∧ isNodeReady
        ⟨"n", [⟨"MemoryPressure", "False"⟩, ⟨"Ready", "Unknown"⟩, ⟨"Ready", "True"⟩]⟩
      = false :=
  ⟨(isNodeReady_decided_by_first_ready.2 "n" [⟨"MemoryPressure", "False"⟩]
      ⟨"Ready", "Unknown"⟩ [⟨"Ready", "True"⟩] [] (by decide) rfl).1,
   (isNodeReady_decided_by_first_ready.2 "n" [⟨"MemoryPressure", "False"⟩]
      ⟨"Ready", "Unknown"⟩ [⟨"Ready", "True"⟩] [] (by decide) rfl).2.mpr (by decide)⟩

/-! ## Requests made by the pod unit -/

theorem namespaceLoop_cons_skip (client : Client) (cfg : Config) (ns : Namespace)
    (rest : List Namespace) (f : Bool) (s : State)
    (hsys : IsSystemNamespace ns.Name cfg = false) :
    CheckSystemPods.namespaceLoop client cfg (ns :: rest) f s =
      CheckSystemPods.namespaceLoop client cfg rest f s := by
  rw [CheckSystemPods.namespaceLoop]
  simp [hsys]

theorem namespaceLoop_cons_ok (client : Client) (cfg : Config) (ns : Namespace)
    (rest : List Namespace) (f : Bool) (s : State) (pods : List Pod)
    (hsys : IsSystemNamespace ns.Name cfg = true)
    (hp : client.ListPods ns.Name = .ok pods) :
    CheckSystemPods.namespaceLoop client cfg (ns :: rest) f s =
      CheckSystemPods.namespaceLoop client cfg rest (CheckSystemPods.podLoop pods f)
        (s.request (Request.ListPods ns.Name)) := by
  rw [CheckSystemPods.namespaceLoop]
  simp [hsys, hp]

theorem namespaceLoop_cons_error (client : Client) (cfg : Config) (ns : Namespace)
    (rest : List Namespace) (f : Bool) (s : State) (e : String)
    (hsys : IsSystemNamespace ns.Name cfg = true)
    (hp : client.ListPods ns.Name = .error e) :
    CheckSystemPods.namespaceLoop client cfg (ns :: rest) f s =
      ((s.request (Request.ListPods ns.Name)).setSystemPodsFailing 1, none) := by
  rw [CheckSystemPods.namespaceLoop]
  simp [hsys, hp]

/-- Over a stretch of namespaces whose requested pod lists all succeed, the
outer loop of the pod unit asks for the pod list of each system namespace, in
order, and goes on with the rest of the list. -/
theorem namespaceLoop_append_ok (client : Client) (cfg : Config)
    (pre rest : List Namespace) (f : Bool) (s : State)
    (hpre : ∀ n ∈ pre, IsSystemNamespace n.Name cfg = true →
      ∃ pods, client.ListPods n.Name = .ok pods) :
    ∃ f' : Bool,
      CheckSystemPods.namespaceLoop client cfg (pre ++ rest) f s =
        CheckSystemPods.namespaceLoop client cfg rest f'
          { s with
            requests :=
              (s.requests ++
                List.map (fun n => Request.ListPods n.Name)
                  (List.filter (fun n => IsSystemNamespace n.Name cfg) pre)) } := by
  induction pre generalizing f s with
  | nil => exact ⟨f, by simp⟩
  | cons ns pre ih =>
    have hrest : ∀ n ∈ pre, IsSystemNamespace n.Name cfg = true →
        ∃ pods, client.ListPods n.Name = .ok pods :=
      fun n hn => hpre n (List.mem_cons_of_mem _ hn)
    simp only [List.cons_append]
    by_cases hsys : IsSystemNamespace ns.Name cfg = true
    · obtain ⟨pods, hp⟩ := hpre ns (List.mem_cons_self _ _) hsys
      obtain ⟨f', hf'⟩ := ih (CheckSystemPods.podLoop pods f)
        (s.request (Request.ListPods ns.Name)) hrest
      refine ⟨f', ?_⟩
      rw [namespaceLoop_cons_ok client cfg ns _ f s pods hsys hp, hf']
      simp [State.request, List.filter_cons, hsys]
    · simp only [Bool.not_eq_true] at hsys
      obtain ⟨f', hf'⟩ := ih f s hrest
      refine ⟨f', ?_⟩
      rw [namespaceLoop_cons_skip client cfg ns _ f s hsys, hf']
      simp [List.filter_cons, hsys]

/-- C20: `CheckSystemPods` first asks for the namespace list; if that fails it
makes no further request; if it succeeds and every pod list asked for
succeeds, the further requests are the pod lists of the listed system
namespaces, in list order, and nothing else; if the pod list of a system
namespace fails (all earlier ones having succeeded), the requests stop with
that pod list, none is made for a later namespace, and `SystemPodsFailing` is
set to 1 whatever the earlier namespaces held. -/
theorem CheckSystemPods_requests_fail_fast (client : Client) (cfg : Config) (s : State) :
    (∀ e, client.ListNamespaces = .error e →
      (CheckSystemPods client cfg s).requests = s.requests ++ [Request.ListNamespaces])
    ∧ (∀ nsList, client.ListNamespaces = .ok nsList →
        (∀ n ∈ nsList, IsSystemNamespace n.Name cfg = true →
          ∃ pods, client.ListPods n.Name = .ok pods) →
        (CheckSystemPods client cfg s).requests =
          s.requests ++ Request.ListNamespaces ::
            (nsList.filter (fun n => IsSystemNamespace n.Name cfg)).map
              (fun n => Request.ListPods n.Name))
    ∧ (∀ (pre : List Namespace) (ns : Namespace) (post : List Namespace),
        client.ListNamespaces = .ok (pre ++ ns :: post) →
        (∀ n ∈ pre, IsSystemNamespace n.Name cfg = true →
          ∃ pods, client.ListPods n.Name = .ok pods) →
        IsSystemNamespace ns.Name cfg = true →
        (∃ e, client.ListPods ns.Name = .error e) →
        (CheckSystemPods client cfg s).requests =
            s.requests ++ Request.ListNamespaces ::
              ((pre.filter (fun n => IsSystemNamespace n.Name cfg)).map
                (fun n => Request.ListPods n.Name) ++ [Request.ListPods ns.Name])
        ∧ (CheckSystemPods client cfg s).gauges =
            { s.gauges with SystemPodsFailing := 1 }) := by
  refine ⟨?_, ?_, ?_⟩
  · intro e he
    simp [CheckSystemPods, he, State.setSystemPodsFailing, State.request]
  · intro nsList hns hok
    obtain ⟨f', hf'⟩ := namespaceLoop_append_ok client cfg nsList [] false
      (s.request Request.ListNamespaces) hok
    rw [List.append_nil] at hf'
    unfold CheckSystemPods
    simp only [hns, hf', CheckSystemPods.namespaceLoop]
    cases f' <;> simp [State.setSystemPodsFailing, State.request]
  · intro pre ns post hns hok hsys herr
    obtain ⟨e, he⟩ := herr
    obtain ⟨f', hf'⟩ := namespaceLoop_append_ok client cfg pre (ns :: post) false
      (s.request Request.ListNamespaces) hok
    unfold CheckSystemPods
    simp only [hns, hf', namespaceLoop_cons_error client cfg ns post f' _ e hsys he]
    simp [State.setSystemPodsFailing, State.request]

/-- C20 at a cluster listing `kube-system` (holding a failing pod), `my-app`,
`openshift-etcd` (whose pod list fails) and `openshift-dns`: the requests are
the namespace list and the pod lists of `kube-system` and `openshift-etcd`
only, and the gauge is 1; and at the client whose namespace list fails: the
namespace list is the only request. -/
theorem CheckSystemPods_requests_fail_fast_witness :
    ((CheckSystemPods midFailureClient defaultConfig zeroState).requests =
        [Request.ListNamespaces, Request.ListPods "kube-system",
          Request.ListPods "openshift-etcd"]
      ∧ (CheckSystemPods midFailureClient defaultConfig zeroState).gauges
          = ⟨0, 0, 1, 0, 0⟩)
    ∧ (CheckSystemPods unreachableClient defaultConfig zeroState).requests
        = [Request.ListNamespaces] :=
  ⟨(CheckSystemPods_requests_fail_fast midFailureClient defaultConfig zeroState).2.2
      [⟨"kube-system"⟩, ⟨"my-app"⟩] ⟨"openshift-etcd"⟩ [⟨"openshift-dns"⟩] rfl
      (by
        intro n hn _
        simp only [List.mem_cons, List.mem_singleton, List.not_mem_nil, or_false] at hn
        rcases hn with rfl | rfl
        · exact ⟨[oomPod "kube-system"], rfl⟩
        · exact ⟨[], rfl⟩)
      (by decide) ⟨"timeout", rfl⟩,
   (CheckSystemPods_requests_fail_fast unreachableClient defaultConfig zeroState).1
      "unreachable" rfl⟩

/-! ## Loading the configuration -/

theorem Atoi_empty : Atoi "" = .error "invalid syntax" := by rfl

theorem Atoi_abc : Atoi "abc" = .error "invalid syntax" := by rfl

theorem Load_checkInterval_block_error (intervalStr : String)
    (hne : intervalStr ≠ "") (hbad : ∀ n, Atoi intervalStr = .ok n → n ≤ 0) :
    Load.checkInterval intervalStr = .error (LoadError.checkInterval intervalStr) := by
  unfold Load.checkInterval
  simp only [hne, if_false]
  cases h : Atoi intervalStr with
  | error e => rfl
  | ok n => simp [hbad n h]

theorem Load_checkInterval_block_ok (intervalStr : String) (n : Int)
    (hn : Atoi intervalStr = .ok n) (hpos : 0 < n) :
    Load.checkInterval intervalStr = .ok (wrapInt64 (n * Second)) := by
  have hne : intervalStr ≠ "" := by
    intro h
    rw [h, Atoi_empty] at hn
    cases hn
  unfold Load.checkInterval
  simp [hne, hn, not_le.mpr hpos]

theorem Load_metricsPort_block_ok (portStr : String) (p : Int)
    (hp : Atoi portStr = .ok p) (h1 : 1 ≤ p) (h2 : p ≤ 65535) :
    Load.metricsPort portStr = .ok p := by
  have hne : portStr ≠ "" := by
    intro h
    rw [h, Atoi_empty] at hp
    cases hp
  unfold Load.metricsPort
  simp [hne, hp, not_lt.mpr h1, not_lt.mpr h2]

theorem Load_metricsPort_block_error (portStr : String)
    (hne : portStr ≠ "")
    (hbad : ∀ p, Atoi portStr = .ok p → p < 1 ∨ 65535 < p) :
    Load.metricsPort portStr = .error (LoadError.metricsPort portStr) := by
  unfold Load.metricsPort
  simp only [hne, if_false]
  cases h : Atoi portStr with
  | error e => rfl
  | ok p =>
    have := hbad p h
    simp [this]

/-- A rejected `CHECK_INTERVAL` makes `Load` return the zero configuration
and the error of that variable. -/
theorem Load_checkInterval_rejected (getenv : String → String)
    (hne : getenv "CHECK_INTERVAL" ≠ "")
    (hbad : ∀ n, Atoi (getenv "CHECK_INTERVAL") = .ok n → n ≤ 0) :
    Load getenv = (Config.zero, some (LoadError.checkInterval (getenv "CHECK_INTERVAL"))) := by
  unfold Load
  rw [Load_checkInterval_block_error _ hne hbad]

/-- The `METRICS_PORT` block reports nothing but its own variable. -/
theorem Load_metricsPort_block_error_kind (portStr : String) (err : LoadError)
    (h : Load.metricsPort portStr = .error err) : err = LoadError.metricsPort portStr := by
  unfold Load.metricsPort at h
  split at h
  · cases h
  · split at h
    · cases h; rfl
    · split at h
      · cases h; rfl
      · cases h

/-- Past an accepted `CHECK_INTERVAL`, `Load` never reports that variable, and
when it succeeds the interval is the value of the `CHECK_INTERVAL` block. -/
theorem Load_of_checkInterval_ok (getenv : String → String) (interval : Int)
    (hok : Load.checkInterval (getenv "CHECK_INTERVAL") = .ok interval) :
    (∀ got, (Load getenv).2 ≠ some (LoadError.checkInterval got))
    ∧ ((Load getenv).2 = none → (Load getenv).1.CheckInterval = interval)
    ∧ ((Load getenv).2 = none ↔
        ∃ port, Load.metricsPort (getenv "METRICS_PORT") = .ok port)
    ∧ (∀ port, Load.metricsPort (getenv "METRICS_PORT") = .ok port →
        (Load getenv).1.MetricsPort = port)
    ∧ (∀ err, Load.metricsPort (getenv "METRICS_PORT") = .error err →
        Load getenv = (Config.zero, some (LoadError.metricsPort (getenv "METRICS_PORT")))) := by
  unfold Load
  rw [hok]
  cases hp : Load.metricsPort (getenv "METRICS_PORT") with
  | error err =>
    have hk := Load_metricsPort_block_error_kind _ err hp
    subst hk
    simp
  | ok port => simp

theorem Load_checkInterval_block_empty :
    Load.checkInterval "" = .ok (30 * Second) := by
  rfl

theorem Load_metricsPort_block_empty :
    Load.metricsPort "" = .ok 8080 := by
  rfl

/-- C13: `Load` returns an error, together with the zero `Config`, whenever
`CHECK_INTERVAL` is non-empty and `strconv.Atoi` does not read it as an
integer greater than 0 (so for `abc`, `0` and `-5`); when `CHECK_INTERVAL` is
empty no error is reported for it and a successful `Load` has an interval of
30 seconds; an integer greater than 0, such as `60`, is accepted: no error is
reported for the variable. -/
theorem Load_check_interval_validation :
    (∀ getenv : String → String, getenv "CHECK_INTERVAL" ≠ "" →
      (∀ n, Atoi (getenv "CHECK_INTERVAL") = .ok n → n ≤ 0) →
      Load getenv
        = (Config.zero, some (LoadError.checkInterval (getenv "CHECK_INTERVAL"))))
    ∧ (∀ getenv : String → String,
        (getenv "CHECK_INTERVAL" = "abc" ∨ getenv "CHECK_INTERVAL" = "0"
          ∨ getenv "CHECK_INTERVAL" = "-5") →
        Load getenv
          = (Config.zero, some (LoadError.checkInterval (getenv "CHECK_INTERVAL"))))
    ∧ (∀ getenv : String → String, getenv "CHECK_INTERVAL" = "" →
        (∀ got, (Load getenv).2 ≠ some (LoadError.checkInterval got))
        ∧ ((Load getenv).2 = none → (Load getenv).1.CheckInterval = 30 * 1000000000))
    ∧ (∀ (getenv : String → String) (n : Int),
        Atoi (getenv "CHECK_INTERVAL") = .ok n → 0 < n →
        ∀ got, (Load getenv).2 ≠ some (LoadError.checkInterval got))
    ∧ (∀ getenv : String → String, getenv "CHECK_INTERVAL" = "60" →
        (∀ got, (Load getenv).2 ≠ some (LoadError.checkInterval got))
        ∧ ((Load getenv).2 = none → (Load getenv).1.CheckInterval = 60 * 1000000000)) := by
  refine ⟨Load_checkInterval_rejected, ?_, ?_, ?_, ?_⟩
  · intro getenv h
    apply Load_checkInterval_rejected
    · rcases h with h | h | h <;> rw [h] <;> decide
    · intro n hn
      rcases h with h | h | h <;> rw [h] at hn
      · rw [Atoi_abc] at hn
        cases hn
      · have h0 : Atoi "0" = .ok 0 := by rfl
        rw [h0] at hn
        cases hn
        exact le_refl _
      · have h5 : Atoi "-5" = .ok (-5) := by rfl
        rw [h5] at hn
        cases hn
        decide
  · intro getenv h
    have hok : Load.checkInterval (getenv "CHECK_INTERVAL") = .ok (30 * Second) := by
      rw [h]
      rfl
    have := Load_of_checkInterval_ok getenv _ hok
    exact ⟨this.1, this.2.1⟩
  · intro getenv n hn hpos
    exact (Load_of_checkInterval_ok getenv _
      (Load_checkInterval_block_ok _ n hn hpos)).1
  · intro getenv h
    have hok : Load.checkInterval (getenv "CHECK_INTERVAL") = .ok (60 * 1000000000) := by
      rw [h]
      rfl
    have := Load_of_checkInterval_ok getenv _ hok
    exact ⟨this.1, this.2.1⟩

/-- C13 at the environments with `CHECK_INTERVAL=abc` and with
`CHECK_INTERVAL=60`. -/
theorem Load_check_interval_validation_witness :
    Load (envOf [("CHECK_INTERVAL", "abc")])
        = (Config.zero, some (LoadError.checkInterval "abc"))
    ∧ (Load (envOf [("CHECK_INTERVAL", "60")])).1.CheckInterval = 60 * 1000000000 :=
  ⟨Load_check_interval_validation.1 (envOf [("CHECK_INTERVAL", "abc")]) (by decide)
      (by
        intro n hn
        have h : Atoi "abc" = .ok n := hn
        rw [Atoi_abc] at h
        cases h),
   (Load_check_interval_validation.2.2.2.2 (envOf [("CHECK_INTERVAL", "60")]) rfl).2
      (by decide)⟩

theorem wrapInt64_of_in_range (x : Int) (hlo : -(2 ^ 63) ≤ x) (hhi : x < 2 ^ 63) :
    wrapInt64 x = x := by
  unfold wrapInt64
  omega

/-- For an interval of at most 9223372036 seconds, a successful `Load` stores
exactly that many seconds, a strictly positive duration. -/
theorem Load_checkInterval_exact_in_range (getenv : String → String) (n : Int)
    (hn : Atoi (getenv "CHECK_INTERVAL") = .ok n) (hpos : 0 < n)
    (hle : n ≤ 9223372036) (hok : (Load getenv).2 = none) :
    (Load getenv).1.CheckInterval = n * 1000000000
    ∧ 0 < (Load getenv).1.CheckInterval := by
  have hblock := Load_checkInterval_block_ok _ n hn hpos
  have h := (Load_of_checkInterval_ok getenv _ hblock).2.1 hok
  have hw : wrapInt64 (n * Second) = n * 1000000000 := by
    apply wrapInt64_of_in_range <;> simp only [Second] <;> omega
  rw [h, hw]
  exact ⟨rfl, by omega⟩

/-- C14, the code at the failing inputs: with `CHECK_INTERVAL=9223372037`
`Load` succeeds and stores the negative duration -9223372036709551616
nanoseconds, the 64-bit product of 9223372037 and 1000000000 wrapped around;
with `CHECK_INTERVAL=36028797018963968` it succeeds and stores the duration
0. -/
theorem Load_check_interval_overflows :
    Load (envOf [("CHECK_INTERVAL", "9223372037")])
      = (⟨-9223372036709551616, 8080, ["openshift-", "kube-"], []⟩, none)
    ∧ Load (envOf [("CHECK_INTERVAL", "36028797018963968")])
      = (⟨0, 8080, ["openshift-", "kube-"], []⟩, none) := by
  decide

/-- C15: past an accepted `CHECK_INTERVAL`, `Load` succeeds iff `METRICS_PORT`
is empty or `strconv.Atoi` reads it as an integer `p` with 1 ≤ p ≤ 65535; the
port is then 8080, respectively `p` (9090 for `9090`); on any other value
(such as `notaport`, `99999`, `0`) `Load` returns the error of that variable
with the zero `Config`. -/
theorem Load_metrics_port_validation (getenv : String → String)
    (hinterval : getenv "CHECK_INTERVAL" = ""
      ∨ ∃ n, Atoi (getenv "CHECK_INTERVAL") = .ok n ∧ 0 < n) :
    ((Load getenv).2 = none ↔
        (getenv "METRICS_PORT" = ""
          ∨ ∃ p, Atoi (getenv "METRICS_PORT") = .ok p ∧ 1 ≤ p ∧ p ≤ 65535))
    ∧ (getenv "METRICS_PORT" = "" → (Load getenv).1.MetricsPort = 8080)
    ∧ (∀ p, Atoi (getenv "METRICS_PORT") = .ok p → 1 ≤ p → p ≤ 65535 →
        (Load getenv).1.MetricsPort = p)
    ∧ ((Load getenv).2 ≠ none →
        Load getenv = (Config.zero, some (LoadError.metricsPort (getenv "METRICS_PORT"))))
    ∧ (getenv "METRICS_PORT" = "9090" →
        (Load getenv).2 = none ∧ (Load getenv).1.MetricsPort = 9090)
    ∧ ((getenv "METRICS_PORT" = "notaport" ∨ getenv "METRICS_PORT" = "99999"
          ∨ getenv "METRICS_PORT" = "0") →
        Load getenv = (Config.zero, some (LoadError.metricsPort (getenv "METRICS_PORT")))) := by
  obtain ⟨interval, hblock⟩ : ∃ interval,
      Load.checkInterval (getenv "CHECK_INTERVAL") = .ok interval := by
    rcases hinterval with h | ⟨n, hn, hpos⟩
    · exact ⟨_, by rw [h]; rfl⟩
    · exact ⟨_, Load_checkInterval_block_ok _ n hn hpos⟩
  obtain ⟨-, -, hsucc, hport, herr⟩ := Load_of_checkInterval_ok getenv interval hblock
  have hiff : (∃ port, Load.metricsPort (getenv "METRICS_PORT") = .ok port) ↔
      (getenv "METRICS_PORT" = ""
        ∨ ∃ p, Atoi (getenv "METRICS_PORT") = .ok p ∧ 1 ≤ p ∧ p ≤ 65535) := by
    constructor
    · rintro ⟨port, hp⟩
      by_cases he : getenv "METRICS_PORT" = ""
      · exact Or.inl he
      · right
        by_contra hno
        have hbad : ∀ p, Atoi (getenv "METRICS_PORT") = .ok p → p < 1 ∨ 65535 < p := by
          intro p hatoi
          by_contra hc
          exact hno ⟨p, hatoi, by omega, by omega⟩
        rw [Load_metricsPort_block_error _ he hbad] at hp
        cases hp
    · rintro (he | ⟨p, hatoi, h1, h2⟩)
      · exact ⟨8080, by rw [he]; rfl⟩
      · exact ⟨p, Load_metricsPort_block_ok _ p hatoi h1 h2⟩
  have hbadport : ∀ v : String, getenv "METRICS_PORT" = v → v ≠ "" →
      (∀ p, Atoi v = .ok p → p < 1 ∨ 65535 < p) →
      Load getenv = (Config.zero, some (LoadError.metricsPort (getenv "METRICS_PORT"))) := by
    intro v hv hne hbad
    apply herr (LoadError.metricsPort (getenv "METRICS_PORT"))
    apply Load_metricsPort_block_error
    · rw [hv]; exact hne
    · rw [hv]; exact hbad
  refine ⟨hsucc.trans hiff, ?_, ?_, ?_, ?_, ?_⟩
  · intro he
    exact hport 8080 (by rw [he]; rfl)
  · intro p hatoi h1 h2
    exact hport p (Load_metricsPort_block_ok _ p hatoi h1 h2)
  · intro hne
    cases hp : Load.metricsPort (getenv "METRICS_PORT") with
    | error err => exact herr err hp
    | ok port => exact absurd (hsucc.mpr ⟨port, hp⟩) hne
  · intro h9090
    have hp : Load.metricsPort (getenv "METRICS_PORT") = .ok 9090 := by
      rw [h9090]; rfl
    exact ⟨hsucc.mpr ⟨9090, hp⟩, hport 9090 hp⟩
  · rintro (h | h | h)
    · refine hbadport _ h (by decide) ?_
      intro p hp
      have hx : Atoi "notaport" = .error "invalid syntax" := by rfl
      rw [hx] at hp
      cases hp
    · refine hbadport _ h (by decide) ?_
      intro p hp
      have hx : Atoi "99999" = .ok 99999 := by rfl
      rw [hx] at hp
      cases hp
      exact Or.inr (by decide)
    · refine hbadport _ h (by decide) ?_
      intro p hp
      have hx : Atoi "0" = .ok 0 := by rfl
      rw [hx] at hp
      cases hp
      exact Or.inl (by decide)

/-- C15 at the environments with `METRICS_PORT=9090` and with
`METRICS_PORT=99999`, `CHECK_INTERVAL` being unset. -/
theorem Load_metrics_port_validation_witness :
    ((Load (envOf [("METRICS_PORT", "9090")])).2 = none
      ∧ (Load (envOf [("METRICS_PORT", "9090")])).1.MetricsPort = 9090)
    ∧ Load (envOf [("METRICS_PORT", "99999")])
        = (Config.zero, some (LoadError.metricsPort "99999")) :=
  ⟨(Load_metrics_port_validation (envOf [("METRICS_PORT", "9090")])
      (Or.inl rfl)).2.2.2.2.1 rfl,
   (Load_metrics_port_validation (envOf [("METRICS_PORT", "99999")])
      (Or.inl rfl)).2.2.2.2.2 (Or.inr (Or.inl rfl))⟩

/-- C16: when `CHECK_INTERVAL`, `METRICS_PORT`, `SYSTEM_NAMESPACE_PREFIXES`
and `SYSTEM_NAMESPACES` are all empty, `Load` succeeds with an interval of 30
seconds, port 8080, the prefixes `openshift-`, `kube-` in that order and no
exact names. -/
theorem Load_defaults (getenv : String → String)
    (hinterval : getenv "CHECK_INTERVAL" = "") (hport : getenv "METRICS_PORT" = "")
    (hprefixes : getenv "SYSTEM_NAMESPACE_PREFIXES" = "")
    (hnames : getenv "SYSTEM_NAMESPACES" = "") :
    Load getenv
      = ({ CheckInterval := 30 * 1000000000, MetricsPort := 8080,
           SystemNamespacePrefixes := ["openshift-", "kube-"],
           SystemNamespaces := [] }, none) := by
  unfold Load
  rw [hinterval, hport, Load_checkInterval_block_empty, Load_metricsPort_block_empty]
  simp only [hprefixes, hnames, if_true]
  rfl

/-- C16 at the environment in which no variable is set. -/
theorem Load_defaults_witness :
    Load (envOf [])
      = ({ CheckInterval := 30000000000, MetricsPort := 8080,
           SystemNamespacePrefixes := ["openshift-", "kube-"],
           SystemNamespaces := [] }, none) :=
  Load_defaults (envOf []) rfl rfl rfl rfl

/-! ## Splitting and trimming the namespace lists -/

theorem Split_fields_ne_nil (sep : Char) (l : List Char) : Split.fields sep l ≠ [] := by
  cases l with
  | nil => simp [Split.fields]
  | cons c rest =>
    unfold Split.fields
    by_cases hc : c = sep
    · simp [hc]
    · simp only [hc, if_false]
      split <;> simp

/-- Joining the fields with the separator gives the string back. -/
theorem Split_fields_intercalate (sep : Char) (l : List Char) :
    List.intercalate [sep] (Split.fields sep l) = l := by
  induction l with
  | nil => simp [Split.fields, List.intercalate]
  | cons c rest ih =>
    unfold Split.fields
    by_cases hc : c = sep
    · simp only [hc, if_true]
      cases hf : Split.fields sep rest with
      | nil => exact absurd hf (Split_fields_ne_nil sep rest)
      | cons field more =>
        rw [hf] at ih
        simp only [List.intercalate, List.intersperse, List.flatten, List.nil_append,
          List.singleton_append, List.cons.injEq, true_and] at ih ⊢
        exact ih
    · simp only [hc, if_false]
      cases hf : Split.fields sep rest with
      | nil => exact absurd hf (Split_fields_ne_nil sep rest)
      | cons field more =>
        rw [hf] at ih
        simp only
        cases more with
        | nil =>
          simp only [List.intercalate, List.intersperse, List.flatten,
            List.append_nil] at ih ⊢
          rw [ih]
        | cons m ms =>
          simp only [List.intercalate, List.intersperse, List.flatten,
            List.cons_append] at ih ⊢
          rw [ih]

/-- No field holds the separator. -/
theorem Split_fields_no_sep (sep : Char) (l : List Char) :
    ∀ field ∈ Split.fields sep l, sep ∉ field := by
  induction l with
  | nil => simp [Split.fields]
  | cons c rest ih =>
    unfold Split.fields
    by_cases hc : c = sep
    · simp only [hc, if_true, List.mem_cons]
      rintro field (rfl | hf)
      · simp
      · exact ih field hf
    · simp only [hc, if_false]
      cases hf : Split.fields sep rest with
      | nil => exact absurd hf (Split_fields_ne_nil sep rest)
      | cons field more =>
        rw [hf] at ih
        simp only [List.mem_cons]
        rintro g (rfl | hg)
        · intro hmem
          rcases List.mem_cons.mp hmem with h | h
          · exact hc h.symm
          · exact ih field (List.mem_cons_self _ _) h
        · exact ih g (List.mem_cons_of_mem _ hg)

theorem splitAndTrim_loop_eq (parts result : List String) :
    splitAndTrim.loop parts result
      = result ++ (parts.map TrimSpace).filter (fun p => decide (p ≠ "")) := by
  induction parts generalizing result with
  | nil => simp [splitAndTrim.loop]
  | cons p rest ih =>
    unfold splitAndTrim.loop
    by_cases hp : TrimSpace p = ""
    · simp [hp, ih]
    · simp [hp, ih]

/-- What `TrimSpace` removes is white space before and after the result, and
the result neither starts nor ends with white space. -/
theorem TrimSpace_spec (s : String) :
    (∃ lead trail : List Char,
      s.data = lead ++ (TrimSpace s).data ++ trail
      ∧ (∀ c ∈ lead, IsSpace c = true) ∧ (∀ c ∈ trail, IsSpace c = true))
    ∧ (∀ c, (TrimSpace s).data.head? = some c → IsSpace c = false)
    ∧ (∀ c, (TrimSpace s).data.getLast? = some c → IsSpace c = false) := by
  refine ⟨⟨s.data.takeWhile IsSpace, (s.data.dropWhile IsSpace).rtakeWhile IsSpace,
    ?_, ?_, ?_⟩, ?_, ?_⟩
  · have h1 : (s.data.dropWhile IsSpace).rdropWhile IsSpace
        ++ (s.data.dropWhile IsSpace).rtakeWhile IsSpace = s.data.dropWhile IsSpace := by
      simp [List.rdropWhile, List.rtakeWhile, ← List.reverse_append]
    simp only [TrimSpace, List.append_assoc, h1, List.takeWhile_append_dropWhile]
  · intro c hc
    exact List.mem_takeWhile_imp hc
  · intro c hc
    exact List.mem_rtakeWhile_imp hc
  · intro c hc
    simp only [TrimSpace] at hc
    have hne : (s.data.dropWhile IsSpace).rdropWhile IsSpace ≠ [] := by
      intro h
      rw [h] at hc
      cases hc
    have hpre : (s.data.dropWhile IsSpace).rdropWhile IsSpace <+: s.data.dropWhile IsSpace :=
      List.rdropWhile_prefix _ _
    have hne2 : s.data.dropWhile IsSpace ≠ [] := by
      intro h
      rw [h] at hne
      simp at hne
    have hhead := hpre.head hne
    have hc2 : ((s.data.dropWhile IsSpace).rdropWhile IsSpace).head hne = c := by
      rw [List.head?_eq_head hne] at hc
      exact Option.some.inj hc
    rw [← hc2, hhead]
    exact List.head_dropWhile_not IsSpace s.data hne2
  · intro c hc
    simp only [TrimSpace] at hc
    have hne : (s.data.dropWhile IsSpace).rdropWhile IsSpace ≠ [] := by
      intro h
      rw [h] at hc
      cases hc
    rw [List.getLast?_eq_getLast _ hne] at hc
    have := List.rdropWhile_last_not IsSpace (s.data.dropWhile IsSpace) hne
    rw [Option.some.inj hc] at this
    simpa using this

theorem splitAndTrim_eq (v : String) :
    splitAndTrim v = ((Split v ',').map TrimSpace).filter (fun p => decide (p ≠ "")) := by
  unfold splitAndTrim
  simp [splitAndTrim_loop_eq]

theorem Load_lists_of_ok (getenv : String → String) (hok : (Load getenv).2 = none) :
    (getenv "SYSTEM_NAMESPACE_PREFIXES" ≠ "" →
      (Load getenv).1.SystemNamespacePrefixes
        = splitAndTrim (getenv "SYSTEM_NAMESPACE_PREFIXES"))
    ∧ (getenv "SYSTEM_NAMESPACES" ≠ "" →
      (Load getenv).1.SystemNamespaces = splitAndTrim (getenv "SYSTEM_NAMESPACES")) := by
  unfold Load at hok ⊢
  cases h1 : Load.checkInterval (getenv "CHECK_INTERVAL") with
  | error e =>
    rw [h1] at hok
    simp at hok
  | ok interval =>
    cases h2 : Load.metricsPort (getenv "METRICS_PORT") with
    | error e =>
      rw [h1, h2] at hok
      simp at hok
    | ok port =>
      constructor <;> intro hne <;> simp [hne]

/-- C17: when `Load` succeeds, a non-empty `SYSTEM_NAMESPACE_PREFIXES`
(respectively `SYSTEM_NAMESPACES`) is stored as `splitAndTrim` of its value;
`splitAndTrim v` is the list of the comma-separated fields of `v` (joined with
commas they give `v` back, and none holds a comma), each passed through
`TrimSpace`, with the results that are empty dropped, in order; `TrimSpace`
removes white space before and after and leaves a string that neither starts
nor ends with white space; so no stored entry is empty or has leading or
trailing white space; `openshift-,my-infra-` yields `openshift-`,
`my-infra-`. -/
theorem Load_stores_trimmed_fields :
    (∀ getenv : String → String, (Load getenv).2 = none →
      (getenv "SYSTEM_NAMESPACE_PREFIXES" ≠ "" →
        (Load getenv).1.SystemNamespacePrefixes
          = splitAndTrim (getenv "SYSTEM_NAMESPACE_PREFIXES"))
      ∧ (getenv "SYSTEM_NAMESPACES" ≠ "" →
        (Load getenv).1.SystemNamespaces = splitAndTrim (getenv "SYSTEM_NAMESPACES")))
    ∧ (∀ v : String, ∃ fields : List String,
        v.data = List.intercalate [','] (fields.map String.data)
        ∧ (∀ field ∈ fields, ',' ∉ field.data)
        ∧ splitAndTrim v = (fields.map TrimSpace).filter (fun p => decide (p ≠ "")))
    ∧ (∀ field : String,
        (∃ lead trail : List Char,
          field.data = lead ++ (TrimSpace field).data ++ trail
          ∧ (∀ c ∈ lead, IsSpace c = true) ∧ (∀ c ∈ trail, IsSpace c = true))
        ∧ (∀ c, (TrimSpace field).data.head? = some c → IsSpace c = false)
        ∧ (∀ c, (TrimSpace field).data.getLast? = some c → IsSpace c = false))
    ∧ (∀ v : String, ∀ entry ∈ splitAndTrim v,
        entry ≠ ""
        ∧ (∀ c, entry.data.head? = some c → IsSpace c = false)
        ∧ (∀ c, entry.data.getLast? = some c → IsSpace c = false))
    ∧ splitAndTrim "openshift-,my-infra-" = ["openshift-", "my-infra-"] := by
  refine ⟨Load_lists_of_ok, ?_, TrimSpace_spec, ?_, by decide⟩
  · intro v
    refine ⟨Split v ',', ?_, ?_, splitAndTrim_eq v⟩
    · have h := Split_fields_intercalate ',' v.data
      simp only [Split, List.map_map]
      have hid : (String.data ∘ String.mk) = (id : List Char → List Char) := by
        funext l
        rfl
      rw [hid, List.map_id]
      exact h.symm
    · intro field hfield
      simp only [Split, List.mem_map] at hfield
      obtain ⟨l, hl, rfl⟩ := hfield
      exact Split_fields_no_sep ',' v.data l hl
  · intro v entry hentry
    rw [splitAndTrim_eq] at hentry
    simp only [List.mem_filter, List.mem_map, decide_eq_true_eq] at hentry
    obtain ⟨⟨field, -, rfl⟩, hne⟩ := hentry
    exact ⟨hne, (TrimSpace_spec field).2.1, (TrimSpace_spec field).2.2⟩

/-- C17 at the environment with `SYSTEM_NAMESPACE_PREFIXES` set to
`openshift-, my-infra- ,,` and `SYSTEM_NAMESPACES` set to `monitoring`. -/
theorem Load_stores_trimmed_fields_witness :
    (Load (envOf [("SYSTEM_NAMESPACE_PREFIXES", "openshift-, my-infra- ,,"),
        ("SYSTEM_NAMESPACES", "monitoring")])).1.SystemNamespacePrefixes
      = splitAndTrim "openshift-, my-infra- ,,"
    ∧ splitAndTrim "openshift-, my-infra- ,," = ["openshift-", "my-infra-"] :=
  ⟨(Load_stores_trimmed_fields.1
      (envOf [("SYSTEM_NAMESPACE_PREFIXES", "openshift-, my-infra- ,,"),
        ("SYSTEM_NAMESPACES", "monitoring")]) (by decide)).1 (by decide),
   by decide⟩

/-! ## One degraded rule, binary gauges -/

/-- C22: for every list of status conditions, `isOperatorDegraded` on a
ClusterOperator carrying the list and `isClusterVersionDegraded` on a
ClusterVersion carrying the same list return the same boolean, whatever the
names of the two resources. -/
theorem degraded_rule_same_for_operator_and_version (opName cvName : String)
    (conditions : List ClusterOperatorStatusCondition) :
    isOperatorDegraded { Name := opName, Conditions := conditions }
      = isClusterVersionDegraded { Name := cvName, Conditions := conditions } := by
  unfold isOperatorDegraded isClusterVersionDegraded
  exact (isClusterVersionDegraded_loop_eq conditions).symm

/-- C23: from any state, each check unit leaves every gauge it owns at 0 or 1,
on the success path and on the error path alike, and after `RunChecks` all
five gauges hold 0 or 1. -/
theorem gauges_binary (client : Client) (cfg : Config) (s : State) :
    (((CheckClusterOperators client s).gauges.ClusterOperatorsDegraded = 0
        ∨ (CheckClusterOperators client s).gauges.ClusterOperatorsDegraded = 1)
      ∧ ((CheckClusterOperators client s).gauges.EtcdDegraded = 0
        ∨ (CheckClusterOperators client s).gauges.EtcdDegraded = 1))
    ∧ ((CheckClusterVersion client s).gauges.ClusterVersionDegraded = 0
        ∨ (CheckClusterVersion client s).gauges.ClusterVersionDegraded = 1)
    ∧ ((CheckNodes client s).gauges.NodesNotReady = 0
        ∨ (CheckNodes client s).gauges.NodesNotReady = 1)
    ∧ ((CheckSystemPods client cfg s).gauges.SystemPodsFailing = 0
        ∨ (CheckSystemPods client cfg s).gauges.SystemPodsFailing = 1)
    ∧ (((RunChecks client cfg s).gauges.ClusterOperatorsDegraded = 0
          ∨ (RunChecks client cfg s).gauges.ClusterOperatorsDegraded = 1)
      ∧ ((RunChecks client cfg s).gauges.NodesNotReady = 0
          ∨ (RunChecks client cfg s).gauges.NodesNotReady = 1)
      ∧ ((RunChecks client cfg s).gauges.SystemPodsFailing = 0
          ∨ (RunChecks client cfg s).gauges.SystemPodsFailing = 1)
      ∧ ((RunChecks client cfg s).gauges.ClusterVersionDegraded = 0
          ∨ (RunChecks client cfg s).gauges.ClusterVersionDegraded = 1)
      ∧ ((RunChecks client cfg s).gauges.EtcdDegraded = 0
          ∨ (RunChecks client cfg s).gauges.EtcdDegraded = 1)) := by
  obtain ⟨a, b, ha, hb, hops⟩ := CheckClusterOperators_overwrites client
  obtain ⟨v, hv, hver⟩ := CheckClusterVersion_overwrites client
  obtain ⟨n, hn, hnodes⟩ := CheckNodes_overwrites client
  obtain ⟨p, hp, hpods⟩ := CheckSystemPods_overwrites client cfg
  obtain ⟨g, h1, h2, h3, h4, h5, hg⟩ := RunChecks_overwrites client cfg
  rw [hops, hver, hnodes, hpods, hg]
  exact ⟨⟨ha, hb⟩, hv, hn, hp, h1, h2, h3, h4, h5⟩

/-! ## The classifier reads its lists as sets -/

/-- C25: the result of `IsSystemNamespace` is the same for two configurations
whose prefix lists have the same entries and whose exact-name lists have the
same entries, so permuting the lists or repeating entries changes nothing;
and when both lists of one configuration are contained in those of another,
a name classified as system by the first is classified as system by the
second. -/
theorem IsSystemNamespace_depends_on_sets (name : String) (cfg cfg' : Config) :
    ((∀ p, p ∈ cfg.SystemNamespacePrefixes ↔ p ∈ cfg'.SystemNamespacePrefixes) →
      (∀ n, n ∈ cfg.SystemNamespaces ↔ n ∈ cfg'.SystemNamespaces) →
      IsSystemNamespace name cfg = IsSystemNamespace name cfg')
    ∧ (cfg.SystemNamespacePrefixes.Perm cfg'.SystemNamespacePrefixes →
      cfg.SystemNamespaces.Perm cfg'.SystemNamespaces →
      IsSystemNamespace name cfg = IsSystemNamespace name cfg')
    ∧ (cfg'.SystemNamespacePrefixes = cfg.SystemNamespacePrefixes.dedup →
      cfg'.SystemNamespaces = cfg.SystemNamespaces.dedup →
      IsSystemNamespace name cfg = IsSystemNamespace name cfg')
    ∧ (cfg.SystemNamespacePrefixes ⊆ cfg'.SystemNamespacePrefixes →
      cfg.SystemNamespaces ⊆ cfg'.SystemNamespaces →
      IsSystemNamespace name cfg = true → IsSystemNamespace name cfg' = true) := by
  have hset : (∀ p, p ∈ cfg.SystemNamespacePrefixes ↔ p ∈ cfg'.SystemNamespacePrefixes) →
      (∀ n, n ∈ cfg.SystemNamespaces ↔ n ∈ cfg'.SystemNamespaces) →
      IsSystemNamespace name cfg = IsSystemNamespace name cfg' := by
    intro hp hn
    rw [Bool.eq_iff_iff, IsSystemNamespace_iff, IsSystemNamespace_iff]
    simp only [hp, hn]
  refine ⟨hset, ?_, ?_, ?_⟩
  · intro hp hn
    exact hset (fun p => hp.mem_iff) (fun n => hn.mem_iff)
  · intro hp hn
    apply hset
    · intro p
      rw [hp, List.mem_dedup]
    · intro n
      rw [hn, List.mem_dedup]
  · intro hp hn h
    rw [IsSystemNamespace_iff] at h ⊢
    rcases h with ⟨pre, hpre, hrest⟩ | h
    · exact Or.inl ⟨pre, hp hpre, hrest⟩
    · exact Or.inr (hn h)

/-- C25 at the default prefixes against the list `kube-`, `openshift-`,
`kube-` (permuted, with a repeat), and against the longer list with
`my-infra-` added. -/
theorem IsSystemNamespace_depends_on_sets_witness :
    IsSystemNamespace "kube-system" defaultConfig
      = IsSystemNamespace "kube-system"
          { defaultConfig with SystemNamespacePrefixes := ["kube-", "openshift-", "kube-"] }
    ∧ IsSystemNamespace "kube-system"
        { defaultConfig with
          SystemNamespacePrefixes := ["openshift-", "my-infra-", "kube-"] } = true :=
  ⟨(IsSystemNamespace_depends_on_sets "kube-system" defaultConfig
      { defaultConfig with SystemNamespacePrefixes := ["kube-", "openshift-", "kube-"] }).1
      (by
        intro p
        show p ∈ ["openshift-", "kube-"] ↔ p ∈ ["kube-", "openshift-", "kube-"]
        simp only [List.mem_cons, List.mem_singleton, List.not_mem_nil, or_false]
        tauto)
      (by intro n; exact Iff.rfl),
   (IsSystemNamespace_depends_on_sets "kube-system" defaultConfig
      { defaultConfig with
        SystemNamespacePrefixes := ["openshift-", "my-infra-", "kube-"] }).2.2.2
      (by decide) (by decide) (by decide)⟩

/-! ## A missing etcd operator -/

/-- C26: when the operator list is fetched and holds no operator named `etcd`,
`CheckClusterOperators` sets `EtcdDegraded` to 0, whatever the state of the
other operators; for the empty list `ClusterOperatorsDegraded` is 0 as
well. -/
theorem CheckClusterOperators_missing_etcd_healthy (client : Client) (s : State)
    (ops : List ClusterOperator) (h : client.ListClusterOperators = .ok ops) :
    ((∀ op ∈ ops, op.Name ≠ "etcd") →
      (CheckClusterOperators client s).gauges.EtcdDegraded = 0)
    ∧ (ops = [] →
      (CheckClusterOperators client s).gauges.EtcdDegraded = 0
      ∧ (CheckClusterOperators client s).gauges.ClusterOperatorsDegraded = 0) := by
  rw [CheckClusterOperators_ok_gauges client s ops h]
  constructor
  · intro hno
    have hany : ops.any (fun op => decide (op.Name = "etcd") && isOperatorDegraded op)
        = false := by
      rw [List.any_eq_false]
      intro op hop
      simp [hno op hop]
    simp only [hany]
    rfl
  · intro hnil
    subst hnil
    exact ⟨rfl, rfl⟩

/-- C26 at the empty operator list and at a list with one degraded operator
that is not `etcd`, starting from all gauges 7. -/
theorem CheckClusterOperators_missing_etcd_healthy_witness :
    ((CheckClusterOperators { unreachableClient with ListClusterOperators := .ok [] }
          sevenState).gauges.EtcdDegraded = 0
      ∧ (CheckClusterOperators { unreachableClient with ListClusterOperators := .ok [] }
          sevenState).gauges.ClusterOperatorsDegraded = 0)
    ∧ (CheckClusterOperators
          { unreachableClient with
            ListClusterOperators := .ok [⟨"dns", [⟨"Degraded", "True", ""⟩]⟩] }
          sevenState).gauges.EtcdDegraded = 0 :=
  ⟨(CheckClusterOperators_missing_etcd_healthy
      { unreachableClient with ListClusterOperators := .ok [] } sevenState [] rfl).2 rfl,
   (CheckClusterOperators_missing_etcd_healthy
      { unreachableClient with
        ListClusterOperators := .ok [⟨"dns", [⟨"Degraded", "True", ""⟩]⟩] }
      sevenState [⟨"dns", [⟨"Degraded", "True", ""⟩]⟩] rfl).1 (by decide)⟩

/-! ## Independence of the units within a cycle -/

theorem CheckClusterOperators_requests (client : Client) (s : State) :
    (CheckClusterOperators client s).requests
      = s.requests ++ [Request.ListClusterOperators] := by
  unfold CheckClusterOperators
  cases client.ListClusterOperators with
  | error e => rfl
  | ok ops =>
    simp only
    split <;> split <;> rfl

theorem CheckClusterVersion_requests (client : Client) (s : State) :
    (CheckClusterVersion client s).requests
      = s.requests ++ [Request.GetClusterVersion "version"] := by
  unfold CheckClusterVersion
  cases client.GetClusterVersion "version" with
  | error e => rfl
  | ok cv =>
    simp only
    split <;> rfl

theorem CheckNodes_requests (client : Client) (s : State) :
    (CheckNodes client s).requests = s.requests ++ [Request.ListNodes] := by
  unfold CheckNodes
  cases client.ListNodes with
  | error e => rfl
  | ok nodes =>
    simp only
    split <;> rfl

/-- The outer loop of the pod unit adds pod-list requests only. -/
theorem namespaceLoop_requests (client : Client) (cfg : Config) (l : List Namespace)
    (f : Bool) (s : State) :
    ∃ reqs : List Request,
      (CheckSystemPods.namespaceLoop client cfg l f s).1.requests = s.requests ++ reqs
      ∧ ∀ r ∈ reqs, ∃ ns, r = Request.ListPods ns := by
  induction l generalizing f s with
  | nil => exact ⟨[], by simp [CheckSystemPods.namespaceLoop], by simp⟩
  | cons ns rest ih =>
    by_cases hsys : IsSystemNamespace ns.Name cfg = true
    · cases hp : client.ListPods ns.Name with
      | error e =>
        rw [namespaceLoop_cons_error client cfg ns rest f s e hsys hp]
        exact ⟨[Request.ListPods ns.Name], rfl, by simp⟩
      | ok pods =>
        rw [namespaceLoop_cons_ok client cfg ns rest f s pods hsys hp]
        obtain ⟨reqs, hreqs, hall⟩ := ih (CheckSystemPods.podLoop pods f)
          (s.request (Request.ListPods ns.Name))
        refine ⟨Request.ListPods ns.Name :: reqs, ?_, ?_⟩
        · rw [hreqs]
          simp [State.request]
        · intro r hr
          rcases List.mem_cons.mp hr with rfl | hr
          · exact ⟨ns.Name, rfl⟩
          · exact hall r hr
    · simp only [Bool.not_eq_true] at hsys
      rw [namespaceLoop_cons_skip client cfg ns rest f s hsys]
      exact ih f s

theorem CheckSystemPods_requests (client : Client) (cfg : Config) (s : State) :
    ∃ podReqs : List Request,
      (CheckSystemPods client cfg s).requests
        = s.requests ++ Request.ListNamespaces :: podReqs
      ∧ ∀ r ∈ podReqs, ∃ ns, r = Request.ListPods ns := by
  unfold CheckSystemPods
  cases client.ListNamespaces with
  | error e => exact ⟨[], rfl, by simp⟩
  | ok nsList =>
    obtain ⟨reqs, hreqs, hall⟩ := namespaceLoop_requests client cfg nsList false
      (s.request Request.ListNamespaces)
    refine ⟨reqs, ?_, hall⟩
    simp only
    generalize CheckSystemPods.namespaceLoop client cfg nsList false
      (s.request Request.ListNamespaces) = r at hreqs
    obtain ⟨s1, o⟩ := r
    simp only [State.request, List.append_assoc, List.singleton_append] at hreqs
    cases o with
    | none => exact hreqs
    | some b => cases b <;> simpa [State.setSystemPodsFailing] using hreqs

theorem CheckClusterOperators_congr (c1 c2 : Client)
    (h : c1.ListClusterOperators = c2.ListClusterOperators) (s : State) :
    CheckClusterOperators c1 s = CheckClusterOperators c2 s := by
  unfold CheckClusterOperators
  rw [h]

theorem CheckClusterVersion_congr (c1 c2 : Client)
    (h : c1.GetClusterVersion "version" = c2.GetClusterVersion "version") (s : State) :
    CheckClusterVersion c1 s = CheckClusterVersion c2 s := by
  unfold CheckClusterVersion
  rw [h]

theorem CheckNodes_congr (c1 c2 : Client) (h : c1.ListNodes = c2.ListNodes) (s : State) :
    CheckNodes c1 s = CheckNodes c2 s := by
  unfold CheckNodes
  rw [h]

theorem CheckSystemPods_congr (c1 c2 : Client) (cfg : Config)
    (hns : c1.ListNamespaces = c2.ListNamespaces)
    (hpods : ∀ name, IsSystemNamespace name cfg = true →
      c1.ListPods name = c2.ListPods name) (s : State) :
    CheckSystemPods c1 cfg s = CheckSystemPods c2 cfg s := by
  unfold CheckSystemPods
  rw [← hns]
  cases c1.ListNamespaces with
  | error e => rfl
  | ok nsList => simp only [namespaceLoop_congr c1 c2 cfg hpods]

/-- After a cycle each gauge holds what its own unit writes, which is what
that unit writes when run alone from the state with all gauges at 0. -/
theorem RunChecks_gauges_by_unit (client : Client) (cfg : Config) (s : State) :
    (RunChecks client cfg s).gauges =
      { ClusterOperatorsDegraded :=
          (CheckClusterOperators client zeroState).gauges.ClusterOperatorsDegraded,
        NodesNotReady := (CheckNodes client zeroState).gauges.NodesNotReady,
        SystemPodsFailing := (CheckSystemPods client cfg zeroState).gauges.SystemPodsFailing,
        ClusterVersionDegraded :=
          (CheckClusterVersion client zeroState).gauges.ClusterVersionDegraded,
        EtcdDegraded := (CheckClusterOperators client zeroState).gauges.EtcdDegraded } := by
  obtain ⟨a, b, -, -, hops⟩ := CheckClusterOperators_overwrites client
  obtain ⟨v, -, hver⟩ := CheckClusterVersion_overwrites client
  obtain ⟨n, -, hnodes⟩ := CheckNodes_overwrites client
  obtain ⟨p, -, hpods⟩ := CheckSystemPods_overwrites client cfg
  unfold RunChecks
  simp only [hpods, hnodes, hver, hops]

theorem RunChecks_requests (client : Client) (cfg : Config) (s : State) :
    ∃ podReqs : List Request,
      (RunChecks client cfg s).requests
        = s.requests ++ [Request.ListClusterOperators, Request.GetClusterVersion "version",
            Request.ListNodes, Request.ListNamespaces] ++ podReqs
      ∧ ∀ r ∈ podReqs, ∃ ns, r = Request.ListPods ns := by
  unfold RunChecks
  obtain ⟨podReqs, hreqs, hall⟩ := CheckSystemPods_requests client cfg
    (CheckNodes client (CheckClusterVersion client (CheckClusterOperators client s)))
  refine ⟨podReqs, ?_, hall⟩
  rw [hreqs, CheckNodes_requests, CheckClusterVersion_requests,
    CheckClusterOperators_requests]
  simp

/-- C21: whatever the responses, a cycle calls all four units: its requests
are the operator list, the get of `version`, the node list and the namespace
list, in that order, followed by pod-list requests only; and the value of each
gauge after the cycle depends only on the responses given to the unit that
owns it: two cycles, from any two states, whose clients agree on the operator
list leave `ClusterOperatorsDegraded` and `EtcdDegraded` equal, likewise for
the version get and `ClusterVersionDegraded`, the node list and
`NodesNotReady`, and the namespace list with the pod lists of system
namespaces and `SystemPodsFailing`. -/
theorem RunChecks_units_independent (c1 c2 : Client) (cfg : Config) (s1 s2 : State) :
    (∃ podReqs : List Request,
      (RunChecks c1 cfg s1).requests
        = s1.requests ++ [Request.ListClusterOperators,
            Request.GetClusterVersion "version", Request.ListNodes,
            Request.ListNamespaces] ++ podReqs
      ∧ ∀ r ∈ podReqs, ∃ ns, r = Request.ListPods ns)
    ∧ (c1.ListClusterOperators = c2.ListClusterOperators →
        (RunChecks c1 cfg s1).gauges.ClusterOperatorsDegraded
          = (RunChecks c2 cfg s2).gauges.ClusterOperatorsDegraded
        ∧ (RunChecks c1 cfg s1).gauges.EtcdDegraded
          = (RunChecks c2 cfg s2).gauges.EtcdDegraded)
    ∧ (c1.GetClusterVersion "version" = c2.GetClusterVersion "version" →
        (RunChecks c1 cfg s1).gauges.ClusterVersionDegraded
          = (RunChecks c2 cfg s2).gauges.ClusterVersionDegraded)
    ∧ (c1.ListNodes = c2.ListNodes →
        (RunChecks c1 cfg s1).gauges.NodesNotReady
          = (RunChecks c2 cfg s2).gauges.NodesNotReady)
    ∧ (c1.ListNamespaces = c2.ListNamespaces →
        (∀ name, IsSystemNamespace name cfg = true →
          c1.ListPods name = c2.ListPods name) →
        (RunChecks c1 cfg s1).gauges.SystemPodsFailing
          = (RunChecks c2 cfg s2).gauges.SystemPodsFailing) := by
  rw [RunChecks_gauges_by_unit c1 cfg s1, RunChecks_gauges_by_unit c2 cfg s2]
  refine ⟨RunChecks_requests c1 cfg s1, ?_, ?_, ?_, ?_⟩
  · intro h
    rw [CheckClusterOperators_congr c1 c2 h]
    exact ⟨rfl, rfl⟩
  · intro h
    simp only [CheckClusterVersion_congr c1 c2 h]
  · intro h
    simp only [CheckNodes_congr c1 c2 h]
  · intro hns hpods
    simp only [CheckSystemPods_congr c1 c2 cfg hns hpods]

/-- C21 at a cluster whose operator list holds `etcd` with Available=False and
whose other calls all fail, against the same cluster with healthy nodes,
version and namespaces, from different states: the two operator gauges are
the same, 0 and 1. -/
theorem RunChecks_units_independent_witness :
    ((RunChecks { unreachableClient with ListClusterOperators := .ok etcdDownOperators }
          defaultConfig zeroState).gauges.ClusterOperatorsDegraded
        = (RunChecks
            { singleNamespaceClient "my-app" with
              ListClusterOperators := .ok etcdDownOperators }
            defaultConfig sevenState).gauges.ClusterOperatorsDegraded
      ∧ (RunChecks { unreachableClient with ListClusterOperators := .ok etcdDownOperators }
          defaultConfig zeroState).gauges.EtcdDegraded
        = (RunChecks
            { singleNamespaceClient "my-app" with
              ListClusterOperators := .ok etcdDownOperators }
            defaultConfig sevenState).gauges.EtcdDegraded)
    ∧ (RunChecks { unreachableClient with ListClusterOperators := .ok etcdDownOperators }
          defaultConfig zeroState).gauges = ⟨0, 1, 1, 1, 1⟩
    ∧ (RunChecks
          { singleNamespaceClient "my-app" with
            ListClusterOperators := .ok etcdDownOperators }
          defaultConfig sevenState).gauges = ⟨0, 0, 0, 0, 1⟩ :=
  ⟨(RunChecks_units_independent
      { unreachableClient with ListClusterOperators := .ok etcdDownOperators }
      { singleNamespaceClient "my-app" with ListClusterOperators := .ok etcdDownOperators }
      defaultConfig zeroState sevenState).2.1 rfl,
   by decide, by decide⟩

end HealthChecker
